import Mathlib

/-
  Shallow embedding of src/ntfscloneimgdelta.c.

  The byte-stream plumbing (read_all / write_all over file descriptors) is
  modelled by structured values: an image file is its parsed header, the
  variable-length extra-metadata block, and the list of command records that
  follow.  Each command record mirrors one wire record exactly: a skip or
  drop tag byte followed by a signed 64-bit repeat count, or a data tag byte
  followed by one cluster payload.  All fatal err_exit calls become
  Except.error carrying the source's message text (without printf numeric
  interpolation).  Machine integers are Nat (unsigned) and Int (signed)
  with explicit mod 2^w where the C code can wrap.
-/

set_option linter.unusedVariables false

namespace NtfsCloneImgDelta

/-- CMD_SKIP from the source (command tag byte 0). -/
def CMD_SKIP : Nat := 0

/-- CMD_DATA from the source (command tag byte 1). -/
def CMD_DATA : Nat := 1

/-- CMD_DROP from the source (command tag byte 2). -/
def CMD_DROP : Nat := 2

def IMAGE_MAGIC_SIZE : Nat := 16

/-- Bytes of the C string constant IMAGE_MAGIC, backslash-zero ntfsclone-image. -/
def IMAGE_MAGIC : List Nat :=
  [0, 110, 116, 102, 115, 99, 108, 111, 110, 101, 45, 105, 109, 97, 103, 101]

/-- Bytes of the C string constant DELTA_MAGIC, backslash-zero ntfsclone-delta. -/
def DELTA_MAGIC : List Nat :=
  [0, 110, 116, 102, 115, 99, 108, 111, 110, 101, 45, 100, 101, 108, 116, 97]

def NTFSCLONE_IMG_VER_MAJOR : Nat := 10

def NTFSCLONE_IMG_VER_MINOR_OLD : Nat := 0

def NTFSCLONE_IMG_VER_MINOR_NEW : Nat := 1

def NTFS_MAX_CLUSTER_SIZE : Nat := 65536

/-- Fixed-width little-endian byte serialization, least significant byte first. -/
def leBytes : Nat → Nat → List Nat
  | 0, _ => []
  | w + 1, v => v % 256 :: leBytes w (v / 256)

/-- Little-endian decoding of a byte list, inverse of leBytes. -/
def leVal : List Nat → Nat
  | [] => 0
  | b :: bs => b + 256 * leVal bs

/-- Serialization of a uint32 field as it sits in the packed struct image_hdr. -/
def le32 (v : Nat) : List Nat := leBytes 4 v

/-- Serialization of an int64 field (twos complement, little endian). -/
def sle64 (v : Int) : List Nat := leBytes 8 (v.emod (2 ^ 64)).toNat

/-- struct image_hdr from the source: magic, versions, cluster geometry and
the offset locating the command stream.  Field values are kept as Nat / Int;
the wire layout is recovered by the serialization functions above. -/
structure ImageHdr where
  magic : List Nat
  major_ver : Nat
  minor_ver : Nat
  cluster_size : Nat
  device_size : Int
  nr_clusters : Int
  inuse : Int
  offset_to_image_data : Nat
deriving DecidableEq, Repr

/-- sizeof(struct image_hdr) for the packed layout: 16+1+1+4+8+8+8+4. -/
def image_hdr_size : Nat := 50

/-- One wire record of a command stream: a skip or drop tag byte followed by
a signed 64-bit repeat count, or a data tag byte followed by one cluster
payload (cluster_size bytes in a well-formed image). -/
inductive Record where
  | skip (rep : Int)
  | data (payload : List Nat)
  | drop (rep : Int)
deriving DecidableEq, Repr

/-- A whole image file: header, extra metadata block, command records. -/
structure ImageFile where
  hdr : ImageHdr
  extra : List Nat
  recs : List Record
deriving DecidableEq, Repr

/-- struct input_image: the reader state of open_input_image plus the not yet
consumed part of the command stream standing in for the file descriptor. -/
structure InputImage where
  hdr : ImageHdr
  hdr_extra : List Nat
  hdr_extra_len : Nat
  csize : Nat
  ccount : Int
  bbs_present : Bool
  cmd : Nat
  cmd_repeat : Int
  cdata : List Nat
  stream : List Record
deriving DecidableEq, Repr

/-- struct output_image, extended with the header bytes written at creation
time and the records written so far (standing in for the output stream). -/
structure OutputImage where
  hdr : ImageHdr
  hdr_extra : List Nat
  cmd : Nat
  cmd_repeat : Int
  out : List Record
deriving DecidableEq, Repr

/-- open_input_image: magic check, version check, then the derived fields.
The extra-length subtraction mirrors the uint32 arithmetic of the source
(offset_to_image_data minus sizeof(struct image_hdr), wrapping mod 2^32).
The memset of the struct zeroes cmd and cmd_repeat and leaves the cluster
buffer as NTFS_MAX_CLUSTER_SIZE zero bytes. -/
def open_input_image (f : ImageFile) (magic : List Nat) : Except String InputImage :=
  if f.hdr.magic ≠ magic then
    .error "Input file doesn't have the expected magic header field!"
  else if f.hdr.major_ver ≠ NTFSCLONE_IMG_VER_MAJOR ∨
      (f.hdr.minor_ver ≠ NTFSCLONE_IMG_VER_MINOR_OLD ∧
       f.hdr.minor_ver ≠ NTFSCLONE_IMG_VER_MINOR_NEW) then
    .error "Image version not supported"
  else
    .ok { hdr := f.hdr
          hdr_extra := f.extra
          hdr_extra_len := (f.hdr.offset_to_image_data + 2 ^ 32 - image_hdr_size) % 2 ^ 32
          csize := f.hdr.cluster_size
          ccount := f.hdr.nr_clusters
          bbs_present := f.hdr.minor_ver == NTFSCLONE_IMG_VER_MINOR_NEW
          cmd := 0
          cmd_repeat := 0
          cdata := List.replicate NTFS_MAX_CLUSTER_SIZE 0
          stream := f.recs }

/-- create_output_image: writes the given magic, then every header byte from
major_ver on, and the extra block, all taken from the old_img argument. -/
def create_output_image (magic : List Nat) (old_img : InputImage) : OutputImage :=
  { hdr := { old_img.hdr with magic := magic }
    hdr_extra := old_img.hdr_extra.take old_img.hdr_extra_len
    cmd := CMD_DATA
    cmd_repeat := 0
    out := [] }

/-- read_next_cluster: serve a pending run cluster, or read the next record.
A drop record is accepted only when allow_drop_cmd is set; otherwise the tag
falls through the data check to the invalid-command error, as in the source.
A data record overwrites the cluster buffer with its payload. -/
def read_next_cluster (img : InputImage) (allow_drop_cmd : Bool) :
    Except String InputImage :=
  if 0 < img.cmd_repeat then
    .ok { img with cmd_repeat := img.cmd_repeat - 1 }
  else
    match img.stream with
    | [] => .error "read: unexpected end of file"
    | .skip rep :: rest =>
        if rep = 0 then .error "Zero repeat length after command code in image"
        else .ok { img with cmd := CMD_SKIP, cmd_repeat := rep - 1, stream := rest }
    | .drop rep :: rest =>
        if allow_drop_cmd then
          if rep = 0 then .error "Zero repeat length after command code in image"
          else .ok { img with cmd := CMD_DROP, cmd_repeat := rep - 1, stream := rest }
        else .error "Invalid command code in image"
    | .data payload :: rest =>
        .ok { img with cmd := CMD_DATA, cdata := payload, stream := rest }

/-- The record flushed by write_pending_cmd for a pending tag and count. -/
def runRec (cmd : Nat) (rep : Int) : Record :=
  if cmd = CMD_SKIP then .skip rep else .drop rep

/-- write_pending_cmd: flush the pending non-data run as one tag byte plus
the signed 64-bit cmd_repeat value, then reset the pending state. -/
def write_pending_cmd (img : OutputImage) : OutputImage :=
  if img.cmd ≠ CMD_DATA then
    { img with
      out := img.out ++ [runRec img.cmd img.cmd_repeat]
      cmd := CMD_DATA
      cmd_repeat := 0 }
  else img

/-- write_cmd: coalesce into the pending run on a tag match, otherwise flush
and start a fresh pending run of count one. -/
def write_cmd (img : OutputImage) (cmd : Nat) : OutputImage :=
  if img.cmd = cmd then
    { img with cmd_repeat := img.cmd_repeat + 1 }
  else
    let img2 := write_pending_cmd img
    { img2 with cmd := cmd, cmd_repeat := 1 }

/-- write_data: flush any pending run, then write the data tag byte followed
by csize payload bytes from the given cluster buffer. -/
def write_data (img : OutputImage) (cdata : List Nat) (csize : Nat) : OutputImage :=
  let img2 := write_pending_cmd img
  { img2 with out := img2.out ++ [Record.data (cdata.take csize)] }

/-- The 20 bytes compared by prepare_image_files: memcmp starting at
cluster_size of length offsetof(inuse) - IMAGE_MAGIC_SIZE - 2, which covers
cluster_size, device_size and nr_clusters and stops right before inuse. -/
def hdrCmpRegion (h : ImageHdr) : List Nat :=
  le32 h.cluster_size ++ sle64 h.device_size ++ sle64 h.nr_clusters

/-- prepare_image_files: open both inputs, cross-check their headers, then
create the output image with the second input as header template. -/
def prepare_image_files (f1 : ImageFile) (magic1 : List Nat)
    (f2 : ImageFile) (magic2 : List Nat) (magic3 : List Nat) :
    Except String (InputImage × InputImage × OutputImage) := do
  let img1 ← open_input_image f1 magic1
  let img2 ← open_input_image f2 magic2
  if hdrCmpRegion img1.hdr ≠ hdrCmpRegion img2.hdr then
    .error "Input images do not have identical headers"
  else if img1.hdr_extra_len ≠ 0 ∧
      img1.hdr_extra.take img1.hdr_extra_len ≠ img2.hdr_extra.take img1.hdr_extra_len then
    .error "Input images do not have identical headers"
  else
    .ok (img1, img2, create_output_image magic3 img2)

/-- finish_image_files: fail when either reader still holds unconsumed
repeat count, then flush the writer (fsync has no observable model). -/
def finish_image_files (img1 img2 : InputImage) (img3 : OutputImage) :
    Except String OutputImage :=
  if 0 < img1.cmd_repeat then
    .error "First input image has remaining unused clusters at the end"
  else if 0 < img2.cmd_repeat then
    .error "Second input image has remaining unused clusters at the end"
  else
    .ok (write_pending_cmd img3)

/-- The loop body of create_delta: the diff policy applied to the current
cluster of OLD and NEW, lines 331 to 336 of the source. -/
def delta_body (old new : InputImage) (delta : OutputImage) : OutputImage :=
  if old.cmd = new.cmd ∧
      (old.cmd = CMD_SKIP ∨ old.cdata.take old.csize = new.cdata.take old.csize) then
    write_cmd delta CMD_SKIP
  else if new.cmd = CMD_SKIP then
    write_cmd delta CMD_DROP
  else
    write_data delta new.cdata new.csize

/-- The per-position loop of create_delta, driven by a fuel argument equal to
the number of remaining iterations of the counted for loop. -/
def delta_loop : Nat → InputImage → InputImage → OutputImage →
    Except String (InputImage × InputImage × OutputImage)
  | 0, old, new, delta => .ok (old, new, delta)
  | n + 1, old, new, delta => do
      let old ← read_next_cluster old false
      let new ← read_next_cluster new false
      delta_loop n old new (delta_body old new delta)

/-- The trailing backup-boot-sector reconciliation of create_delta. -/
def delta_tail (old new : InputImage) (delta : OutputImage) :
    Except String (InputImage × InputImage × OutputImage) :=
  if old.bbs_present && !new.bbs_present then do
    let old2 ← read_next_cluster old false
    .ok (old2, new, delta)
  else if !old.bbs_present && new.bbs_present then do
    let new2 ← read_next_cluster new false
    .ok (old, new2, write_data delta new2.cdata new2.csize)
  else
    .ok (old, new, delta)

/-- create_delta: prepare, loop over ccount positions (one more when both
inputs carry the trailing sector), reconcile the tail, finish. -/
def create_delta (f1 f2 : ImageFile) : Except String ImageFile := do
  let (old, new, delta) ← prepare_image_files f1 IMAGE_MAGIC f2 IMAGE_MAGIC DELTA_MAGIC
  let ccount : Int :=
    if old.bbs_present && new.bbs_present then old.ccount + 1 else old.ccount
  let (old, new, delta) ← delta_loop ccount.toNat old new delta
  let (old, new, delta) ← delta_tail old new delta
  let delta ← finish_image_files old new delta
  .ok { hdr := delta.hdr, extra := delta.hdr_extra, recs := delta.out }

/-- The loop body of apply_patch: the merge policy applied to the current
cluster of OLD and DELTA, lines 369 to 374 of the source. -/
def apply_body (old delta : InputImage) (new : OutputImage) : OutputImage :=
  if delta.cmd = CMD_DROP ∨ (old.cmd = CMD_SKIP ∧ delta.cmd = CMD_SKIP) then
    write_cmd new CMD_SKIP
  else if delta.cmd = CMD_SKIP then
    write_data new old.cdata old.csize
  else
    write_data new delta.cdata delta.csize

/-- The per-position loop of apply_patch. -/
def apply_loop : Nat → InputImage → InputImage → OutputImage →
    Except String (InputImage × InputImage × OutputImage)
  | 0, old, delta, new => .ok (old, delta, new)
  | n + 1, old, delta, new => do
      let old ← read_next_cluster old false
      let delta ← read_next_cluster delta true
      apply_loop n old delta (apply_body old delta new)

/-- The trailing backup-boot-sector reconciliation of apply_patch.  Note the
source reads the trailing delta cluster with allow_drop_cmd = 0 (line 383). -/
def apply_tail (old delta : InputImage) (new : OutputImage) :
    Except String (InputImage × InputImage × OutputImage) :=
  if old.bbs_present && !delta.bbs_present then do
    let old2 ← read_next_cluster old false
    .ok (old2, delta, new)
  else if !old.bbs_present && delta.bbs_present then do
    let d2 ← read_next_cluster delta false
    .ok (old, d2, write_data new d2.cdata d2.csize)
  else
    .ok (old, delta, new)

/-- apply_patch: as in the source, ccount is computed with the tail bump but
the main loop condition on line 364 iterates pos over old.ccount, so ccount
is never used. -/
def apply_patch (f1 f2 : ImageFile) : Except String ImageFile := do
  let (old, delta, new) ← prepare_image_files f1 IMAGE_MAGIC f2 DELTA_MAGIC IMAGE_MAGIC
  let ccount : Int :=
    if old.bbs_present && delta.bbs_present then old.ccount + 1 else old.ccount
  let (old, delta, new) ← apply_loop old.ccount.toNat old delta new
  let (old, delta, new) ← apply_tail old delta new
  let new ← finish_image_files old delta new
  .ok { hdr := new.hdr, extra := new.hdr_extra, recs := new.out }

/-
  Semantics layer: the logical cluster events a command stream denotes, the
  run-length expansion performed by the reader, and the coalescing performed
  by the writer.  These definitions are the abstraction functions used to
  state the claims; they are not part of the source.
-/

/-- A decoded cluster event: the unit consumed and produced per position. -/
inductive Event where
  | skip
  | drop
  | data (payload : List Nat)
deriving DecidableEq, Repr

/-- The cluster events one wire record denotes: a run of stored repeat count
r expands to r events (the reader serves one on reading the record and r - 1
more from the pending counter), a data record to one event. -/
def recEvents : Record → List Event
  | .skip rep => List.replicate rep.toNat Event.skip
  | .drop rep => List.replicate rep.toNat Event.drop
  | .data p => [Event.data p]

/-- The cluster events a whole command stream denotes. -/
def streamEvents (rs : List Record) : List Event := (rs.map recEvents).flatten

/-- Well-formedness of one record relative to a cluster size: runs have a
positive stored count, drop runs occur only when allowed, data payloads are
exactly one cluster. -/
def wfRec (allow : Bool) (csize : Nat) : Record → Bool
  | .skip rep => decide (1 ≤ rep)
  | .drop rep => allow && decide (1 ≤ rep)
  | .data p => p.length == csize

def wfStream (allow : Bool) (csize : Nat) (rs : List Record) : Bool :=
  rs.all (wfRec allow csize)

/-- Well-formedness of one event relative to a cluster size. -/
def eventWf (allow : Bool) (csize : Nat) : Event → Bool
  | .skip => true
  | .drop => allow
  | .data p => p.length == csize

/-- Reader-state invariant: the pending count is nonnegative, a positive
pending count belongs to a skip run (or a drop run when drops are allowed),
and the unread records are well formed. -/
def readerInv (allow : Bool) (img : InputImage) : Bool :=
  decide (0 ≤ img.cmd_repeat) &&
  (decide (img.cmd_repeat ≤ 0) ||
    (img.cmd == CMD_SKIP || (allow && img.cmd == CMD_DROP))) &&
  wfStream allow img.csize img.stream

/-- The event the reader state currently presents: tag plus, for data, the
csize bytes of the cluster buffer that the algorithms inspect. -/
def curEvent (img : InputImage) : Event :=
  if img.cmd = CMD_SKIP then Event.skip
  else if img.cmd = CMD_DROP then Event.drop
  else Event.data (img.cdata.take img.csize)

/-- All events a reader state will still deliver: the pending run remainder
followed by the denotation of the unread records. -/
def pendingEvents (img : InputImage) : List Event :=
  List.replicate img.cmd_repeat.toNat (curEvent img) ++ streamEvents img.stream

/-- Correspondence between a reader state and the event it was read as. -/
def cmdMatches (img : InputImage) (e : Event) : Prop :=
  (img.cmd = CMD_SKIP ∧ e = Event.skip) ∨
  (img.cmd = CMD_DROP ∧ e = Event.drop) ∨
  (img.cmd = CMD_DATA ∧ e = Event.data (img.cdata.take img.csize))

/-- Writer-state invariant: either no pending run (tag data, count zero) or
a pending skip or drop run of positive count. -/
def writerInv (w : OutputImage) : Bool :=
  (w.cmd == CMD_DATA && decide (w.cmd_repeat = 0)) ||
  ((w.cmd == CMD_SKIP || w.cmd == CMD_DROP) && decide (1 ≤ w.cmd_repeat))

/-- The events represented by the not yet flushed pending run. -/
def outPending (w : OutputImage) : List Event :=
  if w.cmd = CMD_SKIP then List.replicate w.cmd_repeat.toNat Event.skip
  else if w.cmd = CMD_DROP then List.replicate w.cmd_repeat.toNat Event.drop
  else []

/-- All events a writer state represents: flushed records plus pending run. -/
def outEvents (w : OutputImage) : List Event := streamEvents w.out ++ outPending w

/-- The event recorded by write_cmd for a non-data tag. -/
def tagEvent (c : Nat) : Event := if c = CMD_SKIP then Event.skip else Event.drop

/-- The per-position diff policy of create_delta on decoded events.  The two
drop rows are unreachable: both generate readers run with allow_drop = 0. -/
def deltaPolicy : Event → Event → Event
  | .skip, .skip => .skip
  | .data p, .data q => if p = q then .skip else .data q
  | _, .skip => .drop
  | _, .data q => .data q
  | _, .drop => .drop

/-- The per-position merge policy of apply_patch on decoded events.  The
drop-skip row is unreachable: the OLD reader runs with allow_drop = 0. -/
def applyPolicy : Event → Event → Event
  | _, .drop => .skip
  | .skip, .skip => .skip
  | .data p, .skip => .data p
  | .drop, .skip => .skip
  | _, .data q => .data q

/-
  Codec-level scaffolding: a fresh writer, a fresh reader over a given record
  list, repeated emission of one tag and repeated reads.
-/

/-- A placeholder header for codec-level statements. -/
def hdr0 : ImageHdr :=
  { magic := IMAGE_MAGIC
    major_ver := NTFSCLONE_IMG_VER_MAJOR
    minor_ver := NTFSCLONE_IMG_VER_MINOR_OLD
    cluster_size := 0
    device_size := 0
    nr_clusters := 0
    inuse := 0
    offset_to_image_data := image_hdr_size }

/-- A fresh writer state as create_output_image initializes it: pending tag
data, pending count zero, nothing written. -/
def freshWriter : OutputImage :=
  { hdr := hdr0, hdr_extra := [], cmd := CMD_DATA, cmd_repeat := 0, out := [] }

/-- A fresh reader state positioned before the given records, as
open_input_image initializes it. -/
def mkReader (rs : List Record) (csize : Nat) : InputImage :=
  { hdr := hdr0
    hdr_extra := []
    hdr_extra_len := 0
    csize := csize
    ccount := 0
    bbs_present := false
    cmd := 0
    cmd_repeat := 0
    cdata := List.replicate NTFS_MAX_CLUSTER_SIZE 0
    stream := rs }

/-- n successive write_cmd calls with one fixed tag. -/
def emitRun (w : OutputImage) (c : Nat) : Nat → OutputImage
  | 0 => w
  | k + 1 => emitRun (write_cmd w c) c k

/-- n successive read_next_cluster calls, collecting the presented events. -/
def read_events (img : InputImage) (allow : Bool) :
    Nat → Except String (InputImage × List Event)
  | 0 => .ok (img, [])
  | k + 1 => do
      let img2 ← read_next_cluster img allow
      let (img3, evs) ← read_events img2 allow k
      .ok (img3, curEvent img2 :: evs)

/-
  Concrete image files used to evaluate the code at specific inputs.
-/

/-- A small test header: one-byte clusters, no extra metadata. -/
def testHdr (minor : Nat) (nrc : Int) : ImageHdr :=
  { magic := IMAGE_MAGIC
    major_ver := NTFSCLONE_IMG_VER_MAJOR
    minor_ver := minor
    cluster_size := 1
    device_size := 2
    nr_clusters := nrc
    inuse := 0
    offset_to_image_data := image_hdr_size }

/-- One-cluster image in the new format (trailing sector present): its
stream carries nr_clusters + 1 = 2 events. -/
def cf1img : ImageFile :=
  { hdr := testHdr NTFSCLONE_IMG_VER_MINOR_NEW 1, extra := [], recs := [Record.skip 2] }

/-- The delta create_delta produces for cf1img against itself. -/
def cf1delta : ImageFile :=
  { hdr := { testHdr NTFSCLONE_IMG_VER_MINOR_NEW 1 with magic := DELTA_MAGIC }
    extra := []
    recs := [Record.skip 2] }

/-- Two-cluster image in the new format, stream of 3 = nr_clusters + 1 events. -/
def cf2old : ImageFile :=
  { hdr := testHdr NTFSCLONE_IMG_VER_MINOR_NEW 2, extra := [], recs := [Record.skip 3] }

/-- A well-formed delta for cf2old in the new format, 3 events. -/
def cf2delta : ImageFile :=
  { hdr := { testHdr NTFSCLONE_IMG_VER_MINOR_NEW 2 with magic := DELTA_MAGIC }
    extra := []
    recs := [Record.skip 3] }

/-- One-cluster old-format image whose in-use count is 5. -/
def cf3a : ImageFile :=
  { hdr := { testHdr NTFSCLONE_IMG_VER_MINOR_OLD 1 with inuse := 5 }
    extra := []
    recs := [Record.skip 1] }

/-- One-cluster old-format image whose in-use count is 0, otherwise as cf3a. -/
def cf3b : ImageFile :=
  { hdr := testHdr NTFSCLONE_IMG_VER_MINOR_OLD 1, extra := [], recs := [Record.skip 1] }

/-- One-cluster old-format base image holding one data cluster. -/
def cf4old : ImageFile :=
  { hdr := testHdr NTFSCLONE_IMG_VER_MINOR_OLD 1, extra := [], recs := [Record.data [7]] }

/-- A new-format delta for cf4old: one unchanged cluster plus the trailing
cluster payload.  Its minor version differs from cf4old's. -/
def cf4delta : ImageFile :=
  { hdr := { testHdr NTFSCLONE_IMG_VER_MINOR_NEW 1 with magic := DELTA_MAGIC }
    extra := []
    recs := [Record.skip 1, Record.data [9]] }

/-- The image apply_patch reconstructs from cf4old and cf4delta. -/
def cf4out : ImageFile :=
  { hdr := testHdr NTFSCLONE_IMG_VER_MINOR_NEW 1
    extra := []
    recs := [Record.data [7], Record.data [9]] }

/-- An image declaring 1 cluster whose stream decodes to 2 clusters, the
second one a whole self-contained extra record. -/
def cf9old : ImageFile :=
  { hdr := testHdr NTFSCLONE_IMG_VER_MINOR_OLD 1
    extra := []
    recs := [Record.skip 1, Record.data [5]] }

/-- A well-formed 1-cluster image matching cf9old's header. -/
def cf9new : ImageFile :=
  { hdr := testHdr NTFSCLONE_IMG_VER_MINOR_OLD 1, extra := [], recs := [Record.skip 1] }

/-- A header valid in magic and version whose cluster_size is twice the
fixed cluster buffer size. -/
def cfBig : ImageFile :=
  { hdr := { testHdr NTFSCLONE_IMG_VER_MINOR_OLD 0 with cluster_size := 131072 }
    extra := []
    recs := [] }

/-- Reader over two clusters, first allocated with payload 3, used as OLD. -/
def r7old : InputImage := mkReader [Record.data [3], Record.skip 1] 1

/-- Reader over two clusters, first allocated with payload 4, used as NEW. -/
def r7new : InputImage := mkReader [Record.data [4], Record.skip 1] 1

/-- OLD-side reader for the patch loop: two allocated clusters. -/
def r8old : InputImage := mkReader [Record.data [3], Record.data [5]] 1

/-- DELTA-side reader for the patch loop: one drop, one unchanged cluster. -/
def r8delta : InputImage := mkReader [Record.drop 1, Record.skip 1] 1

/-- A reader state holding one unconsumed pending cluster at end of stream. -/
def rPending : InputImage := { mkReader [] 1 with cmd := CMD_SKIP, cmd_repeat := 1 }

/-- A reader state with nothing pending at end of stream. -/
def rDone : InputImage := mkReader [] 1

/-- The reader state open_input_image yields for cf3a. -/
def img3a : InputImage :=
  { hdr := cf3a.hdr
    hdr_extra := []
    hdr_extra_len := 0
    csize := 1
    ccount := 1
    bbs_present := false
    cmd := 0
    cmd_repeat := 0
    cdata := List.replicate NTFS_MAX_CLUSTER_SIZE 0
    stream := cf3a.recs }

/-- The reader state open_input_image yields for cf3b. -/
def img3b : InputImage :=
  { img3a with hdr := cf3b.hdr, stream := cf3b.recs }

/-
  Reader lemmas.
-/

theorem streamEvents_nil : streamEvents [] = [] := rfl

theorem streamEvents_cons (r : Record) (rs : List Record) :
    streamEvents (r :: rs) = recEvents r ++ streamEvents rs := by
  simp [streamEvents]

theorem streamEvents_append (xs ys : List Record) :
    streamEvents (xs ++ ys) = streamEvents xs ++ streamEvents ys := by
  simp [streamEvents]

theorem cmdMatches_curEvent (img : InputImage) (e : Event) (h : cmdMatches img e) :
    curEvent img = e := by
  rcases h with ⟨hc, he⟩ | ⟨hc, he⟩ | ⟨hc, he⟩ <;>
    simp [curEvent, hc, CMD_SKIP, CMD_DROP, CMD_DATA, he]

/-- One step of the reader: with a well-formed state whose remaining events
are e followed by es, read_next_cluster succeeds, presents exactly e, leaves
es remaining, and preserves the invariant and the header-derived fields. -/
theorem read_step (allow : Bool) (img : InputImage) (e : Event) (es : List Event)
    (hinv : readerInv allow img = true) (hpe : pendingEvents img = e :: es) :
    ∃ img2, read_next_cluster img allow = .ok img2 ∧
      cmdMatches img2 e ∧ curEvent img2 = e ∧
      pendingEvents img2 = es ∧ readerInv allow img2 = true ∧
      eventWf allow img.csize e = true ∧
      img2.csize = img.csize ∧ img2.ccount = img.ccount ∧
      img2.bbs_present = img.bbs_present ∧ img2.hdr = img.hdr ∧
      img2.hdr_extra = img.hdr_extra ∧ img2.hdr_extra_len = img.hdr_extra_len := by
  simp only [readerInv, Bool.and_eq_true, Bool.or_eq_true, decide_eq_true_eq,
    beq_iff_eq] at hinv
  obtain ⟨⟨h0, htag⟩, hwf⟩ := hinv
  by_cases hrep : 0 < img.cmd_repeat
  · -- a pending run cluster is served
    have htag2 : img.cmd = CMD_SKIP ∨ (allow = true ∧ img.cmd = CMD_DROP) := by
      rcases htag with h | h | h
      · omega
      · exact Or.inl h
      · exact Or.inr h
    have hm : img.cmd_repeat.toNat = (img.cmd_repeat - 1).toNat + 1 := by omega
    rw [pendingEvents, hm, List.replicate_succ, List.cons_append,
      List.cons.injEq] at hpe
    obtain ⟨he, hes⟩ := hpe
    refine ⟨{ img with cmd_repeat := img.cmd_repeat - 1 }, ?_, ?_, ?_, ?_, ?_, ?_,
      rfl, rfl, rfl, rfl, rfl, rfl⟩
    · unfold read_next_cluster
      rw [if_pos hrep]
    · rcases htag2 with hc | ⟨ha, hc⟩
      · exact Or.inl ⟨hc, by simp [← he, curEvent, hc, CMD_SKIP]⟩
      · refine Or.inr (Or.inl ⟨hc, ?_⟩)
        simp [← he, curEvent, hc, CMD_DROP, CMD_SKIP]
    · exact he
    · show List.replicate _ (curEvent _) ++ _ = es
      have hcur : curEvent { img with cmd_repeat := img.cmd_repeat - 1 } =
          curEvent img := rfl
      rw [hcur]
      exact hes
    · simp only [readerInv, Bool.and_eq_true, Bool.or_eq_true, decide_eq_true_eq,
        beq_iff_eq]
      refine ⟨⟨by omega, ?_⟩, hwf⟩
      rcases htag2 with hc | hc
      · exact Or.inr (Or.inl hc)
      · exact Or.inr (Or.inr hc)
    · rcases htag2 with hc | ⟨ha, hc⟩
      · simp [eventWf, ← he, curEvent, hc, CMD_SKIP]
      · simp [eventWf, ← he, curEvent, hc, CMD_DROP, CMD_SKIP, ha]
  · -- the next record is read
    have hz : img.cmd_repeat = 0 := by omega
    have hpe2 : streamEvents img.stream = e :: es := by
      rw [pendingEvents, hz] at hpe
      simpa using hpe
    rcases hstream : img.stream with _ | ⟨r, rest⟩
    · rw [hstream] at hpe2
      simp [streamEvents] at hpe2
    · rw [hstream] at hpe2 hwf
      simp only [wfStream, List.all_cons, Bool.and_eq_true] at hwf
      obtain ⟨hwr, hwrest⟩ := hwf
      rcases r with rep2 | p | rep2
      · -- skip record
        simp only [wfRec, decide_eq_true_eq] at hwr
        have hm : rep2.toNat = (rep2 - 1).toNat + 1 := by omega
        rw [streamEvents_cons, recEvents, hm, List.replicate_succ,
          List.cons_append, List.cons.injEq] at hpe2
        obtain ⟨he, hes⟩ := hpe2
        have hne : ¬ rep2 = 0 := by omega
        have hpos : (0 : Int) ≤ rep2 - 1 := by omega
        refine ⟨{ img with cmd := CMD_SKIP, cmd_repeat := rep2 - 1, stream := rest },
          ?_, ?_, ?_, ?_, ?_, ?_, rfl, rfl, rfl, rfl, rfl, rfl⟩
        · simp [read_next_cluster, hrep, hstream, hne]
        · exact Or.inl ⟨rfl, he.symm⟩
        · simp [curEvent, CMD_SKIP, ← he]
        · simp only [pendingEvents]
          have hcur : curEvent { img with cmd := CMD_SKIP, cmd_repeat := rep2 - 1, stream := rest } = Event.skip := by
            simp [curEvent, CMD_SKIP]
          rw [hcur]
          exact hes
        · simp [readerInv, wfStream, hwrest, hpos, CMD_SKIP, CMD_DROP]
        · simp [eventWf, ← he]
      · -- data record
        simp only [wfRec, beq_iff_eq] at hwr
        rw [streamEvents_cons, recEvents, List.singleton_append,
          List.cons.injEq] at hpe2
        obtain ⟨he, hes⟩ := hpe2
        have htake : p.take img.csize = p := by
          rw [← hwr]
          exact List.take_length p
        refine ⟨{ img with cmd := CMD_DATA, cdata := p, stream := rest },
          ?_, ?_, ?_, ?_, ?_, ?_, rfl, rfl, rfl, rfl, rfl, rfl⟩
        · simp [read_next_cluster, hrep, hstream]
        · refine Or.inr (Or.inr ⟨rfl, ?_⟩)
          show e = Event.data (p.take img.csize)
          rw [htake, ← he]
        · show curEvent _ = e
          simp [curEvent, CMD_DATA, CMD_SKIP, CMD_DROP, htake, ← he]
        · simp only [pendingEvents]
          rw [hz]
          simpa using hes
        · simp [readerInv, wfStream, hwrest, hz, CMD_DATA]
        · simp [eventWf, ← he, hwr]
      · -- drop record
        simp only [wfRec, Bool.and_eq_true, decide_eq_true_eq] at hwr
        obtain ⟨hallow, hr1⟩ := hwr
        have hm : rep2.toNat = (rep2 - 1).toNat + 1 := by omega
        rw [streamEvents_cons, recEvents, hm, List.replicate_succ,
          List.cons_append, List.cons.injEq] at hpe2
        obtain ⟨he, hes⟩ := hpe2
        have hne : ¬ rep2 = 0 := by omega
        have hpos : (0 : Int) ≤ rep2 - 1 := by omega
        refine ⟨{ img with cmd := CMD_DROP, cmd_repeat := rep2 - 1, stream := rest },
          ?_, ?_, ?_, ?_, ?_, ?_, rfl, rfl, rfl, rfl, rfl, rfl⟩
        · simp [read_next_cluster, hrep, hstream, hallow, hne]
        · exact Or.inr (Or.inl ⟨rfl, he.symm⟩)
        · simp [curEvent, CMD_DROP, CMD_SKIP, ← he]
        · simp only [pendingEvents]
          have hcur : curEvent { img with cmd := CMD_DROP, cmd_repeat := rep2 - 1, stream := rest } = Event.drop := by
            simp [curEvent, CMD_DROP, CMD_SKIP]
          rw [hcur]
          exact hes
        · have hwrest2 : ∀ x ∈ rest, wfRec true img.csize x = true := by
            intro x hx
            have hax := List.all_eq_true.mp hwrest x hx
            rwa [hallow] at hax
          simp [readerInv, wfStream, hpos, hallow, CMD_DROP, CMD_SKIP]
          exact hwrest2
        · simp [eventWf, ← he, hallow]

/-- A reader state with no events left holds no unconsumed repeat count. -/
theorem pendingEvents_nil_repeat (allow : Bool) (img : InputImage)
    (hinv : readerInv allow img = true) (h : pendingEvents img = []) :
    img.cmd_repeat = 0 := by
  simp only [readerInv, Bool.and_eq_true, decide_eq_true_eq] at hinv
  obtain ⟨⟨h0, _⟩, _⟩ := hinv
  rw [pendingEvents, List.append_eq_nil] at h
  have := h.1
  rcases ht : img.cmd_repeat.toNat with _ | m
  · omega
  · rw [ht, List.replicate_succ] at this
    simp at this

/-
  Writer lemmas.
-/

theorem write_pending_spec (w : OutputImage) (hinv : writerInv w = true) :
    outEvents (write_pending_cmd w) = outEvents w ∧
    (write_pending_cmd w).cmd = CMD_DATA ∧
    (write_pending_cmd w).cmd_repeat = 0 ∧
    writerInv (write_pending_cmd w) = true ∧
    (write_pending_cmd w).hdr = w.hdr ∧
    (write_pending_cmd w).hdr_extra = w.hdr_extra := by
  simp only [writerInv, Bool.or_eq_true, Bool.and_eq_true, beq_iff_eq,
    decide_eq_true_eq] at hinv
  rcases hinv with ⟨hc, hr⟩ | ⟨hc, hr⟩
  · -- tag data, nothing pending: the flush is a no-op
    unfold write_pending_cmd
    rw [if_neg (by simp [hc])]
    exact ⟨rfl, hc, hr, by simp [writerInv, hc, hr], rfl, rfl⟩
  · -- a pending skip or drop run of positive count is flushed
    have hne : w.cmd ≠ CMD_DATA := by
      rcases hc with hc | hc <;> simp [hc, CMD_SKIP, CMD_DROP, CMD_DATA]
    unfold write_pending_cmd
    rw [if_pos hne]
    refine ⟨?_, rfl, rfl, by simp [writerInv], rfl, rfl⟩
    show streamEvents (w.out ++ [runRec w.cmd w.cmd_repeat]) ++ outPending _ =
      outEvents w
    have hop : outPending { w with out := w.out ++ [runRec w.cmd w.cmd_repeat], cmd := CMD_DATA, cmd_repeat := 0 } = [] := by
      simp [outPending, CMD_DATA, CMD_SKIP, CMD_DROP]
    rw [hop, streamEvents_append, List.append_nil, outEvents]
    congr 1
    rcases hc with hc | hc
    · simp [streamEvents, runRec, recEvents, outPending, hc, CMD_SKIP]
    · simp [streamEvents, runRec, recEvents, outPending, hc, CMD_DROP, CMD_SKIP]

theorem write_cmd_spec (w : OutputImage) (c : Nat) (hc : c = CMD_SKIP ∨ c = CMD_DROP)
    (hinv : writerInv w = true) :
    outEvents (write_cmd w c) = outEvents w ++ [tagEvent c] ∧
    writerInv (write_cmd w c) = true ∧
    (write_cmd w c).hdr = w.hdr ∧
    (write_cmd w c).hdr_extra = w.hdr_extra := by
  by_cases heq : w.cmd = c
  · -- same tag: the pending count is bumped
    have hr : 1 ≤ w.cmd_repeat := by
      simp only [writerInv, Bool.or_eq_true, Bool.and_eq_true, beq_iff_eq,
        decide_eq_true_eq] at hinv
      rcases hinv with ⟨hcd, _⟩ | ⟨_, hr⟩
      · exfalso
        rcases hc with hc2 | hc2 <;> rw [heq, hc2] at hcd <;> simp [CMD_SKIP, CMD_DROP, CMD_DATA] at hcd
      · exact hr
    unfold write_cmd
    rw [if_pos heq]
    have ht : (w.cmd_repeat + 1).toNat = w.cmd_repeat.toNat + 1 := by omega
    refine ⟨?_, ?_, rfl, rfl⟩
    · show streamEvents w.out ++ outPending _ = (streamEvents w.out ++ outPending w) ++ [tagEvent c]
      rw [List.append_assoc]
      congr 1
      rcases hc with hc2 | hc2
      · simp only [outPending, heq, hc2, CMD_SKIP, CMD_DROP, tagEvent]
        simp [ht, List.replicate_succ']
      · simp only [outPending, heq, hc2, CMD_SKIP, CMD_DROP, tagEvent]
        simp [ht, List.replicate_succ']
    · rcases hc with hc2 | hc2 <;>
        simp [writerInv, heq, hc2, CMD_SKIP, CMD_DROP, (by omega : 1 ≤ w.cmd_repeat + 1)]
  · -- different tag: flush, then start a fresh pending run of one
    obtain ⟨hout, hcd, hcr, hinv2, hh, he⟩ := write_pending_spec w hinv
    unfold write_cmd
    rw [if_neg heq]
    refine ⟨?_, ?_, ?_, ?_⟩
    · show streamEvents (write_pending_cmd w).out ++ outPending _ = _
      have hop : outPending { write_pending_cmd w with cmd := c, cmd_repeat := 1 } = [tagEvent c] := by
        rcases hc with hc2 | hc2 <;>
          simp [outPending, hc2, CMD_SKIP, CMD_DROP, tagEvent]
      rw [hop, ← hout, outEvents]
      have hop2 : outPending (write_pending_cmd w) = [] := by
        simp [outPending, hcd, CMD_DATA, CMD_SKIP, CMD_DROP]
      rw [hop2, List.append_nil]
    · rcases hc with hc2 | hc2 <;> simp [writerInv, hc2, CMD_SKIP, CMD_DROP]
    · exact hh
    · exact he

theorem write_data_spec (w : OutputImage) (d : List Nat) (cs : Nat)
    (hinv : writerInv w = true) :
    outEvents (write_data w d cs) = outEvents w ++ [Event.data (d.take cs)] ∧
    writerInv (write_data w d cs) = true ∧
    (write_data w d cs).hdr = w.hdr ∧
    (write_data w d cs).hdr_extra = w.hdr_extra := by
  obtain ⟨hout, hcd, hcr, hinv2, hh, he⟩ := write_pending_spec w hinv
  unfold write_data
  refine ⟨?_, ?_, hh, he⟩
  · show streamEvents ((write_pending_cmd w).out ++ [Record.data (d.take cs)]) ++
      outPending _ = _
    have hop : outPending { write_pending_cmd w with
        out := (write_pending_cmd w).out ++ [Record.data (d.take cs)] } = [] := by
      simp [outPending, hcd, CMD_DATA, CMD_SKIP, CMD_DROP]
    rw [hop, List.append_nil, streamEvents_append, ← hout, outEvents]
    have hop2 : outPending (write_pending_cmd w) = [] := by
      simp [outPending, hcd, CMD_DATA, CMD_SKIP, CMD_DROP]
    rw [hop2, List.append_nil]
    simp [streamEvents, recEvents]
  · simp [writerInv, hcd, hcr, CMD_DATA]

theorem wfOut_write_pending (cs : Nat) (w : OutputImage) (hinv : writerInv w = true)
    (hwf : wfStream true cs w.out = true) :
    wfStream true cs (write_pending_cmd w).out = true := by
  simp only [writerInv, Bool.or_eq_true, Bool.and_eq_true, beq_iff_eq,
    decide_eq_true_eq] at hinv
  unfold write_pending_cmd
  rcases hinv with ⟨hc, hr⟩ | ⟨hc, hr⟩
  · rw [if_neg (by simp [hc])]
    exact hwf
  · have hne : w.cmd ≠ CMD_DATA := by
      rcases hc with hc | hc <;> simp [hc, CMD_SKIP, CMD_DROP, CMD_DATA]
    rw [if_pos hne]
    show wfStream true cs (w.out ++ [runRec w.cmd w.cmd_repeat]) = true
    simp only [wfStream, List.all_append, Bool.and_eq_true]
    refine ⟨hwf, ?_⟩
    rcases hc with hc | hc <;> simp [runRec, wfRec, hc, CMD_SKIP, CMD_DROP, hr]

theorem wfOut_write_cmd (cs : Nat) (w : OutputImage) (c : Nat)
    (hinv : writerInv w = true) (hwf : wfStream true cs w.out = true) :
    wfStream true cs (write_cmd w c).out = true := by
  unfold write_cmd
  by_cases heq : w.cmd = c
  · rw [if_pos heq]
    exact hwf
  · rw [if_neg heq]
    show wfStream true cs (write_pending_cmd w).out = true
    exact wfOut_write_pending cs w hinv hwf

theorem wfOut_write_data (cs : Nat) (w : OutputImage) (d : List Nat) (csz : Nat)
    (hinv : writerInv w = true) (hwf : wfStream true cs w.out = true)
    (hlen : (d.take csz).length = cs) :
    wfStream true cs (write_data w d csz).out = true := by
  unfold write_data
  show wfStream true cs ((write_pending_cmd w).out ++ [Record.data (d.take csz)]) = true
  simp only [wfStream, List.all_append, Bool.and_eq_true]
  refine ⟨wfOut_write_pending cs w hinv hwf, ?_⟩
  simp [wfRec, hlen]

/-
  Loop body lemmas: each loop body appends exactly the policy event for the
  pair of events just read.
-/

theorem delta_body_spec (o n : InputImage) (w : OutputImage) (eo en : Event)
    (ho : cmdMatches o eo) (hn : cmdMatches n en)
    (hdo : eo ≠ Event.drop) (hdn : en ≠ Event.drop)
    (hcs : n.csize = o.csize)
    (hinv : writerInv w = true) :
    outEvents (delta_body o n w) = outEvents w ++ [deltaPolicy eo en] ∧
    writerInv (delta_body o n w) = true ∧
    (delta_body o n w).hdr = w.hdr ∧
    (delta_body o n w).hdr_extra = w.hdr_extra ∧
    (∀ cs, wfStream true cs w.out = true → eventWf false cs en = true →
      wfStream true cs (delta_body o n w).out = true) := by
  rcases ho with ⟨hco, heo⟩ | ⟨hco, heo⟩ | ⟨hco, heo⟩
  · -- OLD event is skip
    rcases hn with ⟨hcn, hen⟩ | ⟨hcn, hen⟩ | ⟨hcn, hen⟩
    · -- NEW event is skip: emit skip
      have hcond : o.cmd = n.cmd ∧
          (o.cmd = CMD_SKIP ∨ o.cdata.take o.csize = n.cdata.take o.csize) := by
        rw [hco, hcn]
        exact ⟨rfl, Or.inl rfl⟩
      rw [delta_body, if_pos hcond]
      obtain ⟨h1, h2, h3, h4⟩ := write_cmd_spec w CMD_SKIP (Or.inl rfl) hinv
      subst heo hen
      refine ⟨?_, h2, h3, h4, ?_⟩
      · rw [h1]
        simp [deltaPolicy, tagEvent, CMD_SKIP]
      · intro cs hwf _
        exact wfOut_write_cmd cs w CMD_SKIP hinv hwf
    · exact absurd hen hdn
    · -- NEW event is data: emit NEW's payload
      have hcond : ¬ (o.cmd = n.cmd ∧
          (o.cmd = CMD_SKIP ∨ o.cdata.take o.csize = n.cdata.take o.csize)) := by
        rintro ⟨h1, _⟩
        rw [hco, hcn] at h1
        simp [CMD_SKIP, CMD_DATA] at h1
      have hcond2 : ¬ n.cmd = CMD_SKIP := by
        rw [hcn]
        simp [CMD_SKIP, CMD_DATA]
      rw [delta_body, if_neg hcond, if_neg hcond2]
      obtain ⟨h1, h2, h3, h4⟩ := write_data_spec w n.cdata n.csize hinv
      subst heo hen
      refine ⟨?_, h2, h3, h4, ?_⟩
      · rw [h1]
        simp [deltaPolicy]
      · intro cs hwf hew
        simp only [eventWf, beq_iff_eq] at hew
        exact wfOut_write_data cs w n.cdata n.csize hinv hwf hew
  · exact absurd heo hdo
  · -- OLD event is data
    rcases hn with ⟨hcn, hen⟩ | ⟨hcn, hen⟩ | ⟨hcn, hen⟩
    · -- NEW event is skip: emit drop
      have hcond : ¬ (o.cmd = n.cmd ∧
          (o.cmd = CMD_SKIP ∨ o.cdata.take o.csize = n.cdata.take o.csize)) := by
        rintro ⟨h1, _⟩
        rw [hco, hcn] at h1
        simp [CMD_SKIP, CMD_DATA] at h1
      rw [delta_body, if_neg hcond, if_pos hcn]
      obtain ⟨h1, h2, h3, h4⟩ := write_cmd_spec w CMD_DROP (Or.inr rfl) hinv
      subst heo hen
      refine ⟨?_, h2, h3, h4, ?_⟩
      · rw [h1]
        simp [deltaPolicy, tagEvent, CMD_DROP, CMD_SKIP]
      · intro cs hwf _
        exact wfOut_write_cmd cs w CMD_DROP hinv hwf
    · exact absurd hen hdn
    · -- both data: compare payloads
      by_cases hpq : o.cdata.take o.csize = n.cdata.take o.csize
      · have hcond : o.cmd = n.cmd ∧
            (o.cmd = CMD_SKIP ∨ o.cdata.take o.csize = n.cdata.take o.csize) := by
          rw [hco, hcn]
          exact ⟨rfl, Or.inr hpq⟩
        rw [delta_body, if_pos hcond]
        obtain ⟨h1, h2, h3, h4⟩ := write_cmd_spec w CMD_SKIP (Or.inl rfl) hinv
        subst heo hen
        refine ⟨?_, h2, h3, h4, ?_⟩
        · rw [h1]
          have hq : n.cdata.take n.csize = o.cdata.take o.csize := by
            rw [hcs, hpq]
          rw [hq]
          simp [deltaPolicy, tagEvent, CMD_SKIP]
        · intro cs hwf _
          exact wfOut_write_cmd cs w CMD_SKIP hinv hwf
      · have hcond : ¬ (o.cmd = n.cmd ∧
            (o.cmd = CMD_SKIP ∨ o.cdata.take o.csize = n.cdata.take o.csize)) := by
          rintro ⟨_, h2⟩
          rcases h2 with h2 | h2
          · rw [hco] at h2
            simp [CMD_SKIP, CMD_DATA] at h2
          · exact hpq h2
        have hcond2 : ¬ n.cmd = CMD_SKIP := by
          rw [hcn]
          simp [CMD_SKIP, CMD_DATA]
        rw [delta_body, if_neg hcond, if_neg hcond2]
        obtain ⟨h1, h2, h3, h4⟩ := write_data_spec w n.cdata n.csize hinv
        subst heo hen
        refine ⟨?_, h2, h3, h4, ?_⟩
        · rw [h1]
          have hpq2 : ¬ o.cdata.take o.csize = n.cdata.take n.csize := by
            rw [hcs]
            exact hpq
          simp [deltaPolicy, hpq2]
        · intro cs hwf hew
          simp only [eventWf, beq_iff_eq] at hew
          exact wfOut_write_data cs w n.cdata n.csize hinv hwf hew

theorem apply_body_spec (o d : InputImage) (w : OutputImage) (eo ed : Event)
    (ho : cmdMatches o eo) (hd : cmdMatches d ed)
    (hdo : eo ≠ Event.drop)
    (hinv : writerInv w = true) :
    outEvents (apply_body o d w) = outEvents w ++ [applyPolicy eo ed] ∧
    writerInv (apply_body o d w) = true ∧
    (apply_body o d w).hdr = w.hdr ∧
    (apply_body o d w).hdr_extra = w.hdr_extra ∧
    (∀ cs, wfStream true cs w.out = true → eventWf false cs eo = true →
      eventWf true cs ed = true → wfStream true cs (apply_body o d w).out = true) := by
  rcases hd with ⟨hcd, hed⟩ | ⟨hcd, hed⟩ | ⟨hcd, hed⟩
  · -- DELTA event is skip
    rcases ho with ⟨hco, heo⟩ | ⟨hco, heo⟩ | ⟨hco, heo⟩
    · -- OLD skip, DELTA skip: emit skip
      have hcond : d.cmd = CMD_DROP ∨ (o.cmd = CMD_SKIP ∧ d.cmd = CMD_SKIP) :=
        Or.inr ⟨hco, hcd⟩
      rw [apply_body, if_pos hcond]
      obtain ⟨h1, h2, h3, h4⟩ := write_cmd_spec w CMD_SKIP (Or.inl rfl) hinv
      subst heo hed
      refine ⟨?_, h2, h3, h4, ?_⟩
      · rw [h1]
        simp [applyPolicy, tagEvent, CMD_SKIP]
      · intro cs hwf _ _
        exact wfOut_write_cmd cs w CMD_SKIP hinv hwf
    · exact absurd heo hdo
    · -- OLD data, DELTA skip: re-materialize from OLD
      have hcond : ¬ (d.cmd = CMD_DROP ∨ (o.cmd = CMD_SKIP ∧ d.cmd = CMD_SKIP)) := by
        rintro (h1 | ⟨h1, _⟩)
        · rw [hcd] at h1
          simp [CMD_SKIP, CMD_DROP] at h1
        · rw [hco] at h1
          simp [CMD_SKIP, CMD_DATA] at h1
      rw [apply_body, if_neg hcond, if_pos hcd]
      obtain ⟨h1, h2, h3, h4⟩ := write_data_spec w o.cdata o.csize hinv
      subst heo hed
      refine ⟨?_, h2, h3, h4, ?_⟩
      · rw [h1]
        simp [applyPolicy]
      · intro cs hwf heo2 _
        simp only [eventWf, beq_iff_eq] at heo2
        exact wfOut_write_data cs w o.cdata o.csize hinv hwf heo2
  · -- DELTA event is drop: emit skip
    have hcond : d.cmd = CMD_DROP ∨ (o.cmd = CMD_SKIP ∧ d.cmd = CMD_SKIP) :=
      Or.inl hcd
    rw [apply_body, if_pos hcond]
    obtain ⟨h1, h2, h3, h4⟩ := write_cmd_spec w CMD_SKIP (Or.inl rfl) hinv
    subst hed
    refine ⟨?_, h2, h3, h4, ?_⟩
    · rw [h1]
      simp [applyPolicy, tagEvent, CMD_SKIP]
    · intro cs hwf _ _
      exact wfOut_write_cmd cs w CMD_SKIP hinv hwf
  · -- DELTA event is data: emit DELTA's payload
    have hcond : ¬ (d.cmd = CMD_DROP ∨ (o.cmd = CMD_SKIP ∧ d.cmd = CMD_SKIP)) := by
      rintro (h1 | ⟨_, h1⟩) <;> rw [hcd] at h1 <;>
        simp [CMD_SKIP, CMD_DROP, CMD_DATA] at h1
    have hcond2 : ¬ d.cmd = CMD_SKIP := by
      rw [hcd]
      simp [CMD_SKIP, CMD_DATA]
    rw [apply_body, if_neg hcond, if_neg hcond2]
    obtain ⟨h1, h2, h3, h4⟩ := write_data_spec w d.cdata d.csize hinv
    subst hed
    refine ⟨?_, h2, h3, h4, ?_⟩
    · rw [h1]
      rcases eo with _ | _ | p
      · simp [applyPolicy]
      · exact absurd rfl hdo
      · simp [applyPolicy]
    · intro cs hwf _ hed2
      simp only [eventWf, beq_iff_eq] at hed2
      exact wfOut_write_data cs w d.cdata d.csize hinv hwf hed2

/-
  Loop lemmas: the counted loops read one event from each input per position
  and write exactly the pointwise policy of the two event sequences.
-/

theorem delta_loop_spec (k : Nat) :
    ∀ (old new : InputImage) (w : OutputImage),
    readerInv false old = true → readerInv false new = true → writerInv w = true →
    new.csize = old.csize →
    k ≤ (pendingEvents old).length → k ≤ (pendingEvents new).length →
    ∃ old2 new2 w2,
      delta_loop k old new w = .ok (old2, new2, w2) ∧
      outEvents w2 = outEvents w ++
        List.zipWith deltaPolicy ((pendingEvents old).take k)
          ((pendingEvents new).take k) ∧
      pendingEvents old2 = (pendingEvents old).drop k ∧
      pendingEvents new2 = (pendingEvents new).drop k ∧
      readerInv false old2 = true ∧ readerInv false new2 = true ∧
      writerInv w2 = true ∧
      old2.csize = old.csize ∧ new2.csize = new.csize ∧
      old2.ccount = old.ccount ∧
      old2.bbs_present = old.bbs_present ∧ new2.bbs_present = new.bbs_present ∧
      w2.hdr = w.hdr ∧ w2.hdr_extra = w.hdr_extra ∧
      (wfStream true old.csize w.out = true →
        wfStream true old.csize w2.out = true) := by
  induction k with
  | zero =>
      intro old new w h1 h2 h3 hcs _ _
      exact ⟨old, new, w, rfl, by simp, by simp, by simp, h1, h2, h3, rfl, rfl,
        rfl, rfl, rfl, rfl, rfl, fun h => h⟩
  | succ k ih =>
      intro old new w h1 h2 h3 hcs hk1 hk2
      rcases hpo : pendingEvents old with _ | ⟨e, es⟩
      · rw [hpo] at hk1
        simp at hk1
      rcases hpn : pendingEvents new with _ | ⟨f, fs⟩
      · rw [hpn] at hk2
        simp at hk2
      obtain ⟨old1, hread1, hm1, hcur1, hpe1, hinv1, hew1, hcs1, hcc1, hbbs1,
        hhdr1, hhe1, hhel1⟩ := read_step false old e es h1 hpo
      obtain ⟨new1, hread2, hm2, hcur2, hpe2, hinv2, hew2, hcs2, hcc2, hbbs2,
        hhdr2, hhe2, hhel2⟩ := read_step false new f fs h2 hpn
      have hdo : e ≠ Event.drop := by
        intro hcontra
        rw [hcontra] at hew1
        simp [eventWf] at hew1
      have hdn : f ≠ Event.drop := by
        intro hcontra
        rw [hcontra] at hew2
        simp [eventWf] at hew2
      have hcsb : new1.csize = old1.csize := by
        rw [hcs1, hcs2, hcs]
      obtain ⟨hb1, hb2, hb3, hb4, hb5⟩ :=
        delta_body_spec old1 new1 w e f hm1 hm2 hdo hdn hcsb h3
      have hstep : delta_loop (k + 1) old new w =
          delta_loop k old1 new1 (delta_body old1 new1 w) := by
        rw [delta_loop, hread1, hread2]
        rfl
      have hlen1 : k ≤ (pendingEvents old1).length := by
        rw [hpe1]
        rw [hpo] at hk1
        simp at hk1
        omega
      have hlen2 : k ≤ (pendingEvents new1).length := by
        rw [hpe2]
        rw [hpn] at hk2
        simp at hk2
        omega
      have hcsi : new1.csize = old1.csize := hcsb
      obtain ⟨old2, new2, w2, hl1, hl2, hl3, hl4, hl5, hl6, hl7, hl8, hl9,
        hl10, hl11, hl12, hl13, hl14, hl15⟩ :=
        ih old1 new1 (delta_body old1 new1 w) hinv1 hinv2 hb2 hcsi hlen1 hlen2
      refine ⟨old2, new2, w2, ?_, ?_, ?_, ?_, hl5, hl6, hl7, ?_, ?_, ?_, ?_, ?_,
        ?_, ?_, ?_⟩
      · rw [hstep, hl1]
      · rw [hl2, hb1, hpe1, hpe2]
        simp [List.take_succ_cons]
      · rw [hl3, hpe1]
        simp [List.drop_succ_cons]
      · rw [hl4, hpe2]
        simp [List.drop_succ_cons]
      · rw [hl8, hcs1]
      · rw [hl9, hcs2]
      · rw [hl10, hcc1]
      · rw [hl11, hbbs1]
      · rw [hl12, hbbs2]
      · rw [hl13, hb3]
      · rw [hl14, hb4]
      · intro hwf
        have hwfb : wfStream true old.csize (delta_body old1 new1 w).out = true := by
          have hew2b : eventWf false old.csize f = true := by
            rw [← hcs]
            exact hew2
          exact hb5 old.csize hwf hew2b
        have := hl15
        rw [hcs1] at this
        exact this hwfb

theorem apply_loop_spec (k : Nat) :
    ∀ (old delta : InputImage) (w : OutputImage),
    readerInv false old = true → readerInv true delta = true → writerInv w = true →
    k ≤ (pendingEvents old).length → k ≤ (pendingEvents delta).length →
    ∃ old2 delta2 w2,
      apply_loop k old delta w = .ok (old2, delta2, w2) ∧
      outEvents w2 = outEvents w ++
        List.zipWith applyPolicy ((pendingEvents old).take k)
          ((pendingEvents delta).take k) ∧
      pendingEvents old2 = (pendingEvents old).drop k ∧
      pendingEvents delta2 = (pendingEvents delta).drop k ∧
      readerInv false old2 = true ∧ readerInv true delta2 = true ∧
      writerInv w2 = true ∧
      old2.csize = old.csize ∧ delta2.csize = delta.csize ∧
      old2.ccount = old.ccount ∧
      old2.bbs_present = old.bbs_present ∧ delta2.bbs_present = delta.bbs_present ∧
      w2.hdr = w.hdr ∧ w2.hdr_extra = w.hdr_extra := by
  induction k with
  | zero =>
      intro old delta w h1 h2 h3 _ _
      exact ⟨old, delta, w, rfl, by simp, by simp, by simp, h1, h2, h3, rfl, rfl,
        rfl, rfl, rfl, rfl, rfl⟩
  | succ k ih =>
      intro old delta w h1 h2 h3 hk1 hk2
      rcases hpo : pendingEvents old with _ | ⟨e, es⟩
      · rw [hpo] at hk1
        simp at hk1
      rcases hpd : pendingEvents delta with _ | ⟨f, fs⟩
      · rw [hpd] at hk2
        simp at hk2
      obtain ⟨old1, hread1, hm1, hcur1, hpe1, hinv1, hew1, hcs1, hcc1, hbbs1,
        hhdr1, hhe1, hhel1⟩ := read_step false old e es h1 hpo
      obtain ⟨delta1, hread2, hm2, hcur2, hpe2, hinv2, hew2, hcs2, hcc2, hbbs2,
        hhdr2, hhe2, hhel2⟩ := read_step true delta f fs h2 hpd
      have hdo : e ≠ Event.drop := by
        intro hcontra
        rw [hcontra] at hew1
        simp [eventWf] at hew1
      obtain ⟨hb1, hb2, hb3, hb4, hb5⟩ :=
        apply_body_spec old1 delta1 w e f hm1 hm2 hdo h3
      have hstep : apply_loop (k + 1) old delta w =
          apply_loop k old1 delta1 (apply_body old1 delta1 w) := by
        rw [apply_loop, hread1, hread2]
        rfl
      have hlen1 : k ≤ (pendingEvents old1).length := by
        rw [hpe1]
        rw [hpo] at hk1
        simp at hk1
        omega
      have hlen2 : k ≤ (pendingEvents delta1).length := by
        rw [hpe2]
        rw [hpd] at hk2
        simp at hk2
        omega
      obtain ⟨old2, delta2, w2, hl1, hl2, hl3, hl4, hl5, hl6, hl7, hl8, hl9,
        hl10, hl11, hl12, hl13, hl14⟩ :=
        ih old1 delta1 (apply_body old1 delta1 w) hinv1 hinv2 hb2 hlen1 hlen2
      refine ⟨old2, delta2, w2, ?_, ?_, ?_, ?_, hl5, hl6, hl7, ?_, ?_, ?_, ?_, ?_,
        ?_, ?_⟩
      · rw [hstep, hl1]
      · rw [hl2, hb1, hpe1, hpe2]
        simp [List.take_succ_cons]
      · rw [hl3, hpe1]
        simp [List.drop_succ_cons]
      · rw [hl4, hpe2]
        simp [List.drop_succ_cons]
      · rw [hl8, hcs1]
      · rw [hl9, hcs2]
      · rw [hl10, hcc1]
      · rw [hl11, hbbs1]
      · rw [hl12, hbbs2]
      · rw [hl13, hb3]
      · rw [hl14, hb4]

/-
  Serialization lemmas: the fixed-width little-endian byte images of two
  field values agree exactly when the values agree modulo the field width.
-/

theorem leBytes_length (w : Nat) : ∀ v, (leBytes w v).length = w := by
  induction w with
  | zero => intro v; rfl
  | succ w ih => intro v; simp [leBytes, ih]

theorem leVal_leBytes (w : Nat) : ∀ v, leVal (leBytes w v) = v % 256 ^ w := by
  induction w with
  | zero => intro v; simp [leBytes, leVal, Nat.mod_one]
  | succ w ih =>
      intro v
      rw [leBytes, leVal, ih, pow_succ' 256 w]
      exact Nat.mod_mul.symm

theorem leBytes_mod (w : Nat) : ∀ v, leBytes w (v % 256 ^ w) = leBytes w v := by
  induction w with
  | zero => intro v; rfl
  | succ w ih =>
      intro v
      rw [leBytes, leBytes]
      have hdvd : (256 : Nat) ∣ 256 ^ (w + 1) := by
        rw [pow_succ' 256 w]
        exact Dvd.intro (256 ^ w) rfl
      have h1 : v % 256 ^ (w + 1) % 256 = v % 256 := Nat.mod_mod_of_dvd v hdvd
      have h2 : v % 256 ^ (w + 1) / 256 = v / 256 % 256 ^ w := by
        rw [pow_succ' 256 w]
        exact Nat.mod_mul_right_div_self v 256 (256 ^ w)
      rw [h1, h2, ih]

theorem leBytes_eq_iff (w a b : Nat) :
    leBytes w a = leBytes w b ↔ a % 256 ^ w = b % 256 ^ w := by
  constructor
  · intro h
    rw [← leVal_leBytes w a, ← leVal_leBytes w b, h]
  · intro h
    rw [← leBytes_mod w a, ← leBytes_mod w b, h]

theorem le32_eq_iff (a b : Nat) : le32 a = le32 b ↔ a % 2 ^ 32 = b % 2 ^ 32 := by
  have h : (256 : Nat) ^ 4 = 2 ^ 32 := by norm_num
  rw [le32, le32, leBytes_eq_iff, h]

theorem sle64_eq_iff (a b : Int) :
    sle64 a = sle64 b ↔ a.emod (2 ^ 64) = b.emod (2 ^ 64) := by
  have h256 : (256 : Nat) ^ 8 = 2 ^ 64 := by norm_num
  have ha0 : 0 ≤ a.emod (2 ^ 64) := Int.emod_nonneg a (by norm_num)
  have hb0 : 0 ≤ b.emod (2 ^ 64) := Int.emod_nonneg b (by norm_num)
  have hal : a.emod (2 ^ 64) < 2 ^ 64 := Int.emod_lt_of_pos a (by norm_num)
  have hbl : b.emod (2 ^ 64) < 2 ^ 64 := Int.emod_lt_of_pos b (by norm_num)
  rw [sle64, sle64, leBytes_eq_iff, h256]
  have hma : (a.emod (2 ^ 64)).toNat % 2 ^ 64 = (a.emod (2 ^ 64)).toNat :=
    Nat.mod_eq_of_lt (by omega)
  have hmb : (b.emod (2 ^ 64)).toNat % 2 ^ 64 = (b.emod (2 ^ 64)).toNat :=
    Nat.mod_eq_of_lt (by omega)
  rw [hma, hmb]
  omega

theorem hdrCmpRegion_eq_iff (g h : ImageHdr) :
    hdrCmpRegion g = hdrCmpRegion h ↔
      (g.cluster_size % 2 ^ 32 = h.cluster_size % 2 ^ 32 ∧
       g.device_size.emod (2 ^ 64) = h.device_size.emod (2 ^ 64) ∧
       g.nr_clusters.emod (2 ^ 64) = h.nr_clusters.emod (2 ^ 64)) := by
  constructor
  · intro heq
    rw [hdrCmpRegion, hdrCmpRegion] at heq
    have hl12 : (le32 g.cluster_size ++ sle64 g.device_size).length =
        (le32 h.cluster_size ++ sle64 h.device_size).length := by
      simp [le32, sle64, leBytes_length]
    obtain ⟨h12, h3⟩ := List.append_inj heq hl12
    have hl1 : (le32 g.cluster_size).length = (le32 h.cluster_size).length := by
      simp [le32, leBytes_length]
    obtain ⟨h1, h2⟩ := List.append_inj h12 hl1
    exact ⟨(le32_eq_iff _ _).mp h1, (sle64_eq_iff _ _).mp h2, (sle64_eq_iff _ _).mp h3⟩
  · intro ⟨h1, h2, h3⟩
    rw [hdrCmpRegion, hdrCmpRegion, (le32_eq_iff _ _).mpr h1,
      (sle64_eq_iff _ _).mpr h2, (sle64_eq_iff _ _).mpr h3]

/-
  Opening and preparation lemmas.
-/

theorem except_bind_ok {α β : Type} (a : α) (f : α → Except String β) :
    (Except.ok a >>= f) = f a := rfl

theorem except_bind_err {α β : Type} (e : String) (f : α → Except String β) :
    ((Except.error e : Except String α) >>= f) = Except.error e := rfl

theorem open_input_image_ok (f : ImageFile) (magic : List Nat)
    (hm : f.hdr.magic = magic)
    (hmaj : f.hdr.major_ver = NTFSCLONE_IMG_VER_MAJOR)
    (hmin : f.hdr.minor_ver = NTFSCLONE_IMG_VER_MINOR_OLD ∨
      f.hdr.minor_ver = NTFSCLONE_IMG_VER_MINOR_NEW) :
    open_input_image f magic = .ok
      { hdr := f.hdr
        hdr_extra := f.extra
        hdr_extra_len := (f.hdr.offset_to_image_data + 2 ^ 32 - image_hdr_size) % 2 ^ 32
        csize := f.hdr.cluster_size
        ccount := f.hdr.nr_clusters
        bbs_present := f.hdr.minor_ver == NTFSCLONE_IMG_VER_MINOR_NEW
        cmd := 0
        cmd_repeat := 0
        cdata := List.replicate NTFS_MAX_CLUSTER_SIZE 0
        stream := f.recs } := by
  have hc1 : ¬ f.hdr.magic ≠ magic := not_not.mpr hm
  have hc2 : ¬ (f.hdr.major_ver ≠ NTFSCLONE_IMG_VER_MAJOR ∨
      (f.hdr.minor_ver ≠ NTFSCLONE_IMG_VER_MINOR_OLD ∧
       f.hdr.minor_ver ≠ NTFSCLONE_IMG_VER_MINOR_NEW)) := by
    push_neg
    exact ⟨hmaj, fun hne => hmin.resolve_left hne⟩
  rw [open_input_image, if_neg hc1, if_neg hc2]

theorem open_input_image_inv (f : ImageFile) (magic : List Nat) (img : InputImage)
    (h : open_input_image f magic = .ok img) :
    img.hdr = f.hdr ∧ img.hdr_extra = f.extra ∧
    img.hdr_extra_len =
      (f.hdr.offset_to_image_data + 2 ^ 32 - image_hdr_size) % 2 ^ 32 ∧
    img.csize = f.hdr.cluster_size ∧ img.ccount = f.hdr.nr_clusters ∧
    img.bbs_present = (f.hdr.minor_ver == NTFSCLONE_IMG_VER_MINOR_NEW) ∧
    img.cmd_repeat = 0 ∧ img.stream = f.recs ∧ f.hdr.magic = magic := by
  unfold open_input_image at h
  split at h
  · exact absurd h (by simp)
  next hmag =>
    split at h
    · exact absurd h (by simp)
    · rw [Except.ok.injEq] at h
      subst h
      exact ⟨rfl, rfl, rfl, rfl, rfl, rfl, rfl, rfl, not_not.mp hmag⟩

theorem prepare_image_files_inv (f1 : ImageFile) (m1 : List Nat) (f2 : ImageFile)
    (m2 m3 : List Nat) (i1 i2 : InputImage) (w : OutputImage)
    (h : prepare_image_files f1 m1 f2 m2 m3 = .ok (i1, i2, w)) :
    open_input_image f1 m1 = .ok i1 ∧ open_input_image f2 m2 = .ok i2 ∧
    w = create_output_image m3 i2 ∧
    hdrCmpRegion i1.hdr = hdrCmpRegion i2.hdr ∧
    (i1.hdr_extra_len = 0 ∨
      i1.hdr_extra.take i1.hdr_extra_len = i2.hdr_extra.take i1.hdr_extra_len) := by
  unfold prepare_image_files at h
  rcases ho1 : open_input_image f1 m1 with e1 | j1
  · rw [ho1, except_bind_err] at h
    exact absurd h (by simp)
  · rw [ho1, except_bind_ok] at h
    rcases ho2 : open_input_image f2 m2 with e2 | j2
    · rw [ho2, except_bind_err] at h
      exact absurd h (by simp)
    · rw [ho2, except_bind_ok] at h
      split at h
      · exact absurd h (by simp)
      next hregion =>
        split at h
        · exact absurd h (by simp)
        next hextra =>
          rw [Except.ok.injEq, Prod.mk.injEq, Prod.mk.injEq] at h
          obtain ⟨hj1, hj2, hw⟩ := h
          subst hj1 hj2
          refine ⟨rfl, rfl, hw.symm, not_not.mp hregion, ?_⟩
          rcases Decidable.not_and_iff_or_not.mp hextra with hx | hx
          · exact Or.inl (not_not.mp hx)
          · exact Or.inr (not_not.mp hx)

/-- Given two successfully opened inputs, the header cross-check either
passes and yields the prepared triple or fails with the fatal message; it
passes exactly when the 20-byte compare region and the visible extra block
agree. -/
theorem prepare_hdr_check (f1 : ImageFile) (m1 : List Nat) (f2 : ImageFile)
    (m2 m3 : List Nat) (i1 i2 : InputImage)
    (h1 : open_input_image f1 m1 = .ok i1)
    (h2 : open_input_image f2 m2 = .ok i2) :
    (prepare_image_files f1 m1 f2 m2 m3 = .ok (i1, i2, create_output_image m3 i2)
      ∨ prepare_image_files f1 m1 f2 m2 m3 =
          .error "Input images do not have identical headers") ∧
    (prepare_image_files f1 m1 f2 m2 m3 = .ok (i1, i2, create_output_image m3 i2) ↔
      (hdrCmpRegion i1.hdr = hdrCmpRegion i2.hdr ∧
       (i1.hdr_extra_len = 0 ∨
        i1.hdr_extra.take i1.hdr_extra_len = i2.hdr_extra.take i1.hdr_extra_len))) := by
  unfold prepare_image_files
  rw [h1, except_bind_ok, h2, except_bind_ok]
  by_cases hr : hdrCmpRegion i1.hdr ≠ hdrCmpRegion i2.hdr
  · rw [if_pos hr]
    constructor
    · exact Or.inr rfl
    · constructor
      · intro hcontra
        exact absurd hcontra (by simp)
      · rintro ⟨hcontra, _⟩
        exact absurd hcontra hr
  · rw [if_neg hr]
    by_cases hx : i1.hdr_extra_len ≠ 0 ∧
        i1.hdr_extra.take i1.hdr_extra_len ≠ i2.hdr_extra.take i1.hdr_extra_len
    · rw [if_pos hx]
      constructor
      · exact Or.inr rfl
      · constructor
        · intro hcontra
          exact absurd hcontra (by simp)
        · rintro ⟨_, hgood⟩
          rcases hgood with hgood | hgood
          · exact absurd hgood hx.1
          · exact absurd hgood hx.2
    · rw [if_neg hx]
      refine ⟨Or.inl rfl, ?_, fun _ => rfl⟩
      intro _
      refine ⟨not_not.mp hr, ?_⟩
      rcases Decidable.not_and_iff_or_not.mp hx with h | h
      · exact Or.inl (not_not.mp h)
      · exact Or.inr (not_not.mp h)

/-
  The output header is written at creation time and never touched again:
  every writer operation and both loops leave hdr and hdr_extra unchanged.
-/

theorem write_pending_cmd_hdr (w : OutputImage) :
    (write_pending_cmd w).hdr = w.hdr ∧
    (write_pending_cmd w).hdr_extra = w.hdr_extra := by
  unfold write_pending_cmd
  split <;> exact ⟨rfl, rfl⟩

theorem write_cmd_hdr (w : OutputImage) (c : Nat) :
    (write_cmd w c).hdr = w.hdr ∧ (write_cmd w c).hdr_extra = w.hdr_extra := by
  unfold write_cmd
  split
  · exact ⟨rfl, rfl⟩
  · exact write_pending_cmd_hdr w

theorem write_data_hdr (w : OutputImage) (d : List Nat) (cs : Nat) :
    (write_data w d cs).hdr = w.hdr ∧ (write_data w d cs).hdr_extra = w.hdr_extra := by
  unfold write_data
  exact write_pending_cmd_hdr w

theorem delta_body_hdr (o n : InputImage) (w : OutputImage) :
    (delta_body o n w).hdr = w.hdr ∧ (delta_body o n w).hdr_extra = w.hdr_extra := by
  unfold delta_body
  split
  · exact write_cmd_hdr w CMD_SKIP
  · split
    · exact write_cmd_hdr w CMD_DROP
    · exact write_data_hdr w n.cdata n.csize

theorem apply_body_hdr (o d : InputImage) (w : OutputImage) :
    (apply_body o d w).hdr = w.hdr ∧ (apply_body o d w).hdr_extra = w.hdr_extra := by
  unfold apply_body
  split
  · exact write_cmd_hdr w CMD_SKIP
  · split
    · exact write_data_hdr w o.cdata o.csize
    · exact write_data_hdr w d.cdata d.csize

theorem delta_loop_hdr (k : Nat) :
    ∀ (o n : InputImage) (w : OutputImage) (o2 n2 : InputImage) (w2 : OutputImage),
    delta_loop k o n w = .ok (o2, n2, w2) →
    w2.hdr = w.hdr ∧ w2.hdr_extra = w.hdr_extra := by
  induction k with
  | zero =>
      intro o n w o2 n2 w2 h
      rw [delta_loop, Except.ok.injEq, Prod.mk.injEq, Prod.mk.injEq] at h
      rw [← h.2.2]
      exact ⟨rfl, rfl⟩
  | succ k ih =>
      intro o n w o2 n2 w2 h
      rw [delta_loop] at h
      rcases hr1 : read_next_cluster o false with e | o1
      · rw [hr1, except_bind_err] at h
        exact absurd h (by simp)
      · rw [hr1, except_bind_ok] at h
        rcases hr2 : read_next_cluster n false with e | n1
        · rw [hr2, except_bind_err] at h
          exact absurd h (by simp)
        · rw [hr2, except_bind_ok] at h
          obtain ⟨hh, hx⟩ := ih o1 n1 (delta_body o1 n1 w) o2 n2 w2 h
          obtain ⟨hbh, hbx⟩ := delta_body_hdr o1 n1 w
          exact ⟨hh.trans hbh, hx.trans hbx⟩

theorem apply_loop_hdr (k : Nat) :
    ∀ (o d : InputImage) (w : OutputImage) (o2 d2 : InputImage) (w2 : OutputImage),
    apply_loop k o d w = .ok (o2, d2, w2) →
    w2.hdr = w.hdr ∧ w2.hdr_extra = w.hdr_extra := by
  induction k with
  | zero =>
      intro o d w o2 d2 w2 h
      rw [apply_loop, Except.ok.injEq, Prod.mk.injEq, Prod.mk.injEq] at h
      rw [← h.2.2]
      exact ⟨rfl, rfl⟩
  | succ k ih =>
      intro o d w o2 d2 w2 h
      rw [apply_loop] at h
      rcases hr1 : read_next_cluster o false with e | o1
      · rw [hr1, except_bind_err] at h
        exact absurd h (by simp)
      · rw [hr1, except_bind_ok] at h
        rcases hr2 : read_next_cluster d true with e | d1
        · rw [hr2, except_bind_err] at h
          exact absurd h (by simp)
        · rw [hr2, except_bind_ok] at h
          obtain ⟨hh, hx⟩ := ih o1 d1 (apply_body o1 d1 w) o2 d2 w2 h
          obtain ⟨hbh, hbx⟩ := apply_body_hdr o1 d1 w
          exact ⟨hh.trans hbh, hx.trans hbx⟩

theorem delta_tail_hdr (o n : InputImage) (w : OutputImage)
    (o2 n2 : InputImage) (w2 : OutputImage)
    (h : delta_tail o n w = .ok (o2, n2, w2)) :
    w2.hdr = w.hdr ∧ w2.hdr_extra = w.hdr_extra := by
  unfold delta_tail at h
  split at h
  · rcases hr : read_next_cluster o false with e | o1
    · rw [hr, except_bind_err] at h
      exact absurd h (by simp)
    · rw [hr, except_bind_ok, Except.ok.injEq, Prod.mk.injEq, Prod.mk.injEq] at h
      rw [← h.2.2]
      exact ⟨rfl, rfl⟩
  · split at h
    · rcases hr : read_next_cluster n false with e | n1
      · rw [hr, except_bind_err] at h
        exact absurd h (by simp)
      · rw [hr, except_bind_ok, Except.ok.injEq, Prod.mk.injEq, Prod.mk.injEq] at h
        rw [← h.2.2]
        exact write_data_hdr w n1.cdata n1.csize
    · rw [Except.ok.injEq, Prod.mk.injEq, Prod.mk.injEq] at h
      rw [← h.2.2]
      exact ⟨rfl, rfl⟩

theorem apply_tail_hdr (o d : InputImage) (w : OutputImage)
    (o2 d2 : InputImage) (w2 : OutputImage)
    (h : apply_tail o d w = .ok (o2, d2, w2)) :
    w2.hdr = w.hdr ∧ w2.hdr_extra = w.hdr_extra := by
  unfold apply_tail at h
  split at h
  · rcases hr : read_next_cluster o false with e | o1
    · rw [hr, except_bind_err] at h
      exact absurd h (by simp)
    · rw [hr, except_bind_ok, Except.ok.injEq, Prod.mk.injEq, Prod.mk.injEq] at h
      rw [← h.2.2]
      exact ⟨rfl, rfl⟩
  · split at h
    · rcases hr : read_next_cluster d false with e | d1
      · rw [hr, except_bind_err] at h
        exact absurd h (by simp)
      · rw [hr, except_bind_ok, Except.ok.injEq, Prod.mk.injEq, Prod.mk.injEq] at h
        rw [← h.2.2]
        exact write_data_hdr w d1.cdata d1.csize
    · rw [Except.ok.injEq, Prod.mk.injEq, Prod.mk.injEq] at h
      rw [← h.2.2]
      exact ⟨rfl, rfl⟩

theorem finish_image_files_hdr (i1 i2 : InputImage) (w w2 : OutputImage)
    (h : finish_image_files i1 i2 w = .ok w2) :
    w2.hdr = w.hdr ∧ w2.hdr_extra = w.hdr_extra := by
  unfold finish_image_files at h
  split at h
  · exact absurd h (by simp)
  · split at h
    · exact absurd h (by simp)
    · rw [Except.ok.injEq] at h
      rw [← h]
      exact write_pending_cmd_hdr w

theorem emitRun_state (c : Nat) (k : Nat) :
    ∀ w : OutputImage, w.cmd = c →
    (emitRun w c k).cmd = c ∧
    (emitRun w c k).cmd_repeat = w.cmd_repeat + (k : Int) ∧
    (emitRun w c k).out = w.out := by
  induction k with
  | zero =>
      intro w hw
      exact ⟨hw, by simp [emitRun], rfl⟩
  | succ k ih =>
      intro w hw
      have hwc : write_cmd w c = { w with cmd_repeat := w.cmd_repeat + 1 } := by
        unfold write_cmd
        rw [if_pos hw]
      rw [emitRun, hwc]
      obtain ⟨h1, h2, h3⟩ := ih { w with cmd_repeat := w.cmd_repeat + 1 } hw
      refine ⟨h1, ?_, h3⟩
      rw [h2]
      push_cast
      ring

theorem emitRun_fresh (c : Nat) (hc : c = CMD_SKIP ∨ c = CMD_DROP) (n : Nat)
    (hn : 1 ≤ n) :
    (emitRun freshWriter c n).cmd = c ∧
    (emitRun freshWriter c n).cmd_repeat = (n : Int) ∧
    (emitRun freshWriter c n).out = [] := by
  obtain ⟨m, rfl⟩ : ∃ m, n = m + 1 := ⟨n - 1, by omega⟩
  have hne : ¬ freshWriter.cmd = c := by
    rcases hc with hc | hc <;>
      simp [freshWriter, hc, CMD_DATA, CMD_SKIP, CMD_DROP]
  have hwc : write_cmd freshWriter c = { freshWriter with cmd := c, cmd_repeat := 1 } := by
    unfold write_cmd
    rw [if_neg hne]
    have hp : write_pending_cmd freshWriter = freshWriter := by
      unfold write_pending_cmd
      rw [if_neg (by simp [freshWriter])]
    rw [hp]
  rw [emitRun, hwc]
  obtain ⟨h1, h2, h3⟩ := emitRun_state c m { freshWriter with cmd := c, cmd_repeat := 1 } rfl
  refine ⟨h1, ?_, h3⟩
  rw [h2]
  show (1 : Int) + (m : Int) = ((m + 1 : Nat) : Int)
  push_cast
  ring

/-- Flushing after n same-tag events writes one record with stored count n. -/
theorem flush_emitRun (c : Nat) (hc : c = CMD_SKIP ∨ c = CMD_DROP) (n : Nat)
    (hn : 1 ≤ n) :
    (write_pending_cmd (emitRun freshWriter c n)).out = [runRec c (n : Int)] := by
  obtain ⟨h1, h2, h3⟩ := emitRun_fresh c hc n hn
  have hne : (emitRun freshWriter c n).cmd ≠ CMD_DATA := by
    rw [h1]
    rcases hc with hc | hc <;> simp [hc, CMD_SKIP, CMD_DROP, CMD_DATA]
  unfold write_pending_cmd
  rw [if_pos hne]
  show (emitRun freshWriter c n).out ++ [runRec _ _] = _
  rw [h1, h2, h3]
  simp

theorem read_events_pending (allow : Bool) (k : Nat) :
    ∀ img : InputImage, (k : Int) ≤ img.cmd_repeat →
    read_events img allow k =
      .ok ({ img with cmd_repeat := img.cmd_repeat - (k : Int) },
        List.replicate k (curEvent img)) := by
  induction k with
  | zero =>
      intro img hk
      simp [read_events]
  | succ k ih =>
      intro img hk
      have hpos : 0 < img.cmd_repeat := by
        have : ((k + 1 : Nat) : Int) = (k : Int) + 1 := by push_cast; ring
        omega
      have hread : read_next_cluster img allow =
          .ok { img with cmd_repeat := img.cmd_repeat - 1 } := by
        unfold read_next_cluster
        rw [if_pos hpos]
      have hk2 : (k : Int) ≤ ({ img with cmd_repeat := img.cmd_repeat - 1 } : InputImage).cmd_repeat := by
        show (k : Int) ≤ img.cmd_repeat - 1
        have : ((k + 1 : Nat) : Int) = (k : Int) + 1 := by push_cast; ring
        omega
      rw [read_events, hread, except_bind_ok, ih _ hk2, except_bind_ok]
      have hcur : curEvent { img with cmd_repeat := img.cmd_repeat - 1 } =
          curEvent img := rfl
      rw [hcur]
      have harith : img.cmd_repeat - 1 - (k : Int) =
          img.cmd_repeat - ((k + 1 : Nat) : Int) := by
        push_cast
        ring
      rw [Except.ok.injEq, Prod.mk.injEq]
      constructor
      · show ({ img with cmd_repeat := img.cmd_repeat - 1 - (k : Int) } : InputImage) = _
        rw [harith]
      · rw [List.replicate_succ]

/-- Reading a single run record with stored count r serves exactly r events
of its tag and leaves the reader exhausted. -/
theorem read_run (c : Nat) (hc : c = CMD_SKIP ∨ c = CMD_DROP) (r : Int)
    (hr : 1 ≤ r) (csz : Nat) :
    read_events (mkReader [runRec c r] csz) true r.toNat =
      .ok ({ mkReader [runRec c r] csz with cmd := c, cmd_repeat := 0, stream := [] },
        List.replicate r.toNat (tagEvent c)) := by
  have hm : r.toNat = (r.toNat - 1) + 1 := by omega
  have hne : ¬ r = 0 := by omega
  have hread : read_next_cluster (mkReader [runRec c r] csz) true =
      .ok { mkReader [runRec c r] csz with cmd := c, cmd_repeat := r - 1, stream := [] } := by
    rcases hc with hc | hc <;>
      · subst hc
        unfold read_next_cluster mkReader runRec
        simp [CMD_SKIP, CMD_DROP, hne]
  rw [hm, read_events, hread, except_bind_ok]
  have hk2 : ((r.toNat - 1 : Nat) : Int) ≤
      ({ mkReader [runRec c r] csz with cmd := c, cmd_repeat := r - 1, stream := [] } : InputImage).cmd_repeat := by
    show ((r.toNat - 1 : Nat) : Int) ≤ r - 1
    omega
  rw [read_events_pending true (r.toNat - 1) _ hk2, except_bind_ok]
  have hcur : curEvent { mkReader [runRec c r] csz with cmd := c, cmd_repeat := r - 1, stream := [] } = tagEvent c := by
    rcases hc with hc | hc <;> subst hc <;>
      simp [curEvent, tagEvent, CMD_SKIP, CMD_DROP]
  rw [hcur, Except.ok.injEq, Prod.mk.injEq]
  constructor
  · show ({ mkReader [runRec c r] csz with cmd := c, cmd_repeat := r - 1 - ((r.toNat - 1 : Nat) : Int), stream := [] } : InputImage) = _
    have : r - 1 - ((r.toNat - 1 : Nat) : Int) = 0 := by omega
    rw [this]
  · rw [← List.replicate_succ, ← hm]

/-
  Claim theorems.
-/

/-- C5 counterexample: flushing a pending run of N = 1 cluster stores the
value 1 after the tag byte, not N - 1 = 0 as the claim states. -/
theorem c5_stored_count_not_minus_one :
    (write_pending_cmd (emitRun freshWriter CMD_SKIP 1)).out ≠ [Record.skip (1 - 1)] ∧
    (write_pending_cmd (emitRun freshWriter CMD_SKIP 1)).out = [Record.skip 1] := by
  constructor <;> decide

/-- C5 (amended): after N same-tag events the pending count is N and the
flushed run record stores exactly N; a run record with stored count R serves
exactly R clusters, after which the reader is exhausted (one more read hits
end of file), so a stored count R represents R clusters, not R + 1. -/
theorem c5_run_count_encoding (c : Nat) (hc : c = CMD_SKIP ∨ c = CMD_DROP)
    (n : Nat) (hn : 1 ≤ n) (r : Int) (hr : 1 ≤ r) (csz : Nat) :
    (emitRun freshWriter c n).cmd_repeat = (n : Int) ∧
    (write_pending_cmd (emitRun freshWriter c n)).out = [runRec c (n : Int)] ∧
    read_events (mkReader [runRec c r] csz) true r.toNat =
      .ok ({ mkReader [runRec c r] csz with cmd := c, cmd_repeat := 0, stream := [] },
        List.replicate r.toNat (tagEvent c)) ∧
    read_next_cluster
      { mkReader [runRec c r] csz with cmd := c, cmd_repeat := 0, stream := [] } true =
      .error "read: unexpected end of file" := by
  refine ⟨(emitRun_fresh c hc n hn).2.1, flush_emitRun c hc n hn,
    read_run c hc r hr csz, rfl⟩

/-- C5 witness at c = skip, N = 2, R = 2. -/
theorem c5_run_count_encoding_witness :
    (CMD_SKIP = CMD_SKIP ∨ CMD_SKIP = CMD_DROP) ∧ 1 ≤ 2 ∧ (1 : Int) ≤ 2 ∧
    ((emitRun freshWriter CMD_SKIP 2).cmd_repeat = ((2 : Nat) : Int) ∧
     (write_pending_cmd (emitRun freshWriter CMD_SKIP 2)).out = [runRec CMD_SKIP ((2 : Nat) : Int)] ∧
     read_events (mkReader [runRec CMD_SKIP 2] 1) true (2 : Int).toNat =
       .ok ({ mkReader [runRec CMD_SKIP 2] 1 with cmd := CMD_SKIP, cmd_repeat := 0, stream := [] },
         List.replicate (2 : Int).toNat (tagEvent CMD_SKIP)) ∧
     read_next_cluster
       { mkReader [runRec CMD_SKIP 2] 1 with cmd := CMD_SKIP, cmd_repeat := 0, stream := [] } true =
       .error "read: unexpected end of file") :=
  ⟨Or.inl rfl, by decide, by decide,
    c5_run_count_encoding CMD_SKIP (Or.inl rfl) 2 (by decide) 2 (by decide) 1⟩

/-- C6: encoding a sequence of n >= 1 events of one non-data tag with the
writer yields a single run record whose stored count is n (hence never
zero), decoding it with the reader reproduces exactly the n events, and a
stored count of zero is rejected by the reader with a fatal error. -/
theorem c6_run_roundtrip (c : Nat) (hc : c = CMD_SKIP ∨ c = CMD_DROP)
    (n : Nat) (hn : 1 ≤ n) (csz : Nat) :
    (write_pending_cmd (emitRun freshWriter c n)).out = [runRec c (n : Int)] ∧
    (1 : Int) ≤ (n : Int) ∧
    (∃ fin, read_events
        (mkReader (write_pending_cmd (emitRun freshWriter c n)).out csz) true n =
        .ok (fin, List.replicate n (tagEvent c)) ∧
      fin.cmd_repeat = 0 ∧ fin.stream = []) ∧
    read_next_cluster (mkReader [runRec c 0] csz) true =
      .error "Zero repeat length after command code in image" := by
  have hflush := flush_emitRun c hc n hn
  have htn : ((n : Int)).toNat = n := Int.toNat_natCast n
  refine ⟨hflush, by omega, ?_, ?_⟩
  · refine ⟨{ mkReader [runRec c (n : Int)] csz with cmd := c, cmd_repeat := 0, stream := [] }, ?_, rfl, rfl⟩
    rw [hflush]
    have := read_run c hc (n : Int) (by omega) csz
    rw [htn] at this
    exact this
  · rcases hc with hc | hc <;> subst hc <;>
      · unfold read_next_cluster mkReader runRec
        simp [CMD_SKIP, CMD_DROP]

/-- C6 witness at c = drop, n = 3. -/
theorem c6_run_roundtrip_witness :
    (CMD_DROP = CMD_SKIP ∨ CMD_DROP = CMD_DROP) ∧ 1 ≤ 3 ∧
    ((write_pending_cmd (emitRun freshWriter CMD_DROP 3)).out =
        [runRec CMD_DROP ((3 : Nat) : Int)] ∧
     (1 : Int) ≤ ((3 : Nat) : Int) ∧
     (∃ fin, read_events
         (mkReader (write_pending_cmd (emitRun freshWriter CMD_DROP 3)).out 1) true 3 =
         .ok (fin, List.replicate 3 (tagEvent CMD_DROP)) ∧
       fin.cmd_repeat = 0 ∧ fin.stream = []) ∧
     read_next_cluster (mkReader [runRec CMD_DROP 0] 1) true =
       .error "Zero repeat length after command code in image") :=
  ⟨Or.inr rfl, by decide, c6_run_roundtrip CMD_DROP (Or.inr rfl) 3 (by decide) 1⟩

/-- C9 counterexample: cf9old's command stream fully decodes to 2 clusters
while its header declares 1, because the extra cluster is a self-contained
trailing record; create_delta consumes only the declared prefix and
succeeds, raising no error at all. -/
theorem c9_trailing_records_undetected :
    (streamEvents cf9old.recs).length = 2 ∧
    cf9old.hdr.nr_clusters = 1 ∧
    (create_delta cf9old cf9new).isOk = true := by
  refine ⟨by decide, by decide, by decide⟩

/-- C9 (amended): at finalization a reader cursor still holding unconsumed
repeat count is fatal, naming the side (first or second input); a stream
that runs out before the declared count is fatal with an unexpected
end-of-file error that names no side; whole extra records beyond the
declared count are not detected (see the counterexample). -/
theorem c9_finish_checks (i1 i2 : InputImage) (w : OutputImage)
    (img : InputImage) (allow : Bool) :
    (0 < i1.cmd_repeat →
      finish_image_files i1 i2 w =
        .error "First input image has remaining unused clusters at the end") ∧
    (i1.cmd_repeat ≤ 0 → 0 < i2.cmd_repeat →
      finish_image_files i1 i2 w =
        .error "Second input image has remaining unused clusters at the end") ∧
    (img.cmd_repeat ≤ 0 → img.stream = [] →
      read_next_cluster img allow = .error "read: unexpected end of file") := by
  refine ⟨?_, ?_, ?_⟩
  · intro h
    unfold finish_image_files
    rw [if_pos h]
  · intro h1 h2
    unfold finish_image_files
    rw [if_neg (by omega), if_pos h2]
  · intro h1 h2
    unfold read_next_cluster
    rw [if_neg (by omega), h2]

/-- C9 witness: a pending cluster on the first side, then on the second
side, then the end-of-file case. -/
theorem c9_finish_checks_witness :
    (0 < rPending.cmd_repeat ∧
      finish_image_files rPending rDone freshWriter =
        .error "First input image has remaining unused clusters at the end") ∧
    (rDone.cmd_repeat ≤ 0 ∧ 0 < rPending.cmd_repeat ∧
      finish_image_files rDone rPending freshWriter =
        .error "Second input image has remaining unused clusters at the end") ∧
    (rDone.cmd_repeat ≤ 0 ∧ rDone.stream = [] ∧
      read_next_cluster rDone false = .error "read: unexpected end of file") :=
  ⟨⟨by decide, (c9_finish_checks rPending rDone freshWriter rDone false).1 (by decide)⟩,
   ⟨by decide, by decide,
     (c9_finish_checks rDone rPending freshWriter rDone false).2.1 (by decide) (by decide)⟩,
   ⟨by decide, rfl,
     (c9_finish_checks rDone rPending freshWriter rDone false).2.2 (by decide) rfl⟩⟩

/-- C10: opening an input image never validates cluster_size: any header
passing the magic and version checks opens successfully, whatever its
cluster_size, while the internal cluster buffer into which a data payload
of csize bytes is later read always has NTFS_MAX_CLUSTER_SIZE bytes. -/
theorem c10_open_no_csize_validation (f : ImageFile) (magic : List Nat)
    (hm : f.hdr.magic = magic)
    (hmaj : f.hdr.major_ver = NTFSCLONE_IMG_VER_MAJOR)
    (hmin : f.hdr.minor_ver = NTFSCLONE_IMG_VER_MINOR_OLD ∨
      f.hdr.minor_ver = NTFSCLONE_IMG_VER_MINOR_NEW) :
    ∃ img, open_input_image f magic = .ok img ∧
      img.csize = f.hdr.cluster_size ∧
      img.cdata.length = NTFS_MAX_CLUSTER_SIZE := by
  refine ⟨_, open_input_image_ok f magic hm hmaj hmin, rfl, ?_⟩
  show (List.replicate NTFS_MAX_CLUSTER_SIZE 0).length = NTFS_MAX_CLUSTER_SIZE
  exact List.length_replicate NTFS_MAX_CLUSTER_SIZE 0

/-- C10 witness: a header whose cluster_size 131072 exceeds the 65536-byte
cluster buffer still opens successfully. -/
theorem c10_open_no_csize_validation_witness :
    cfBig.hdr.magic = IMAGE_MAGIC ∧
    cfBig.hdr.major_ver = NTFSCLONE_IMG_VER_MAJOR ∧
    cfBig.hdr.minor_ver = NTFSCLONE_IMG_VER_MINOR_OLD ∧
    NTFS_MAX_CLUSTER_SIZE < cfBig.hdr.cluster_size ∧
    (∃ img, open_input_image cfBig IMAGE_MAGIC = .ok img ∧
      img.csize = cfBig.hdr.cluster_size ∧
      img.cdata.length = NTFS_MAX_CLUSTER_SIZE) :=
  ⟨rfl, rfl, rfl, by decide,
    c10_open_no_csize_validation cfBig IMAGE_MAGIC rfl rfl (Or.inl rfl)⟩

/-- C3 counterexample: two inputs identical in every compared byte but with
different in-use counts pass the header cross-check, and the whole delta
generation succeeds; the in-use count is not among the compared fields. -/
theorem c3_inuse_not_compared :
    cf3a.hdr.inuse ≠ cf3b.hdr.inuse ∧
    cf3a.hdr.cluster_size = cf3b.hdr.cluster_size ∧
    cf3a.hdr.device_size = cf3b.hdr.device_size ∧
    cf3a.hdr.nr_clusters = cf3b.hdr.nr_clusters ∧
    cf3a.extra = cf3b.extra ∧
    (prepare_image_files cf3a IMAGE_MAGIC cf3b IMAGE_MAGIC DELTA_MAGIC).isOk = true ∧
    (create_delta cf3a cf3b).isOk = true := by
  refine ⟨by decide, rfl, rfl, rfl, rfl, by decide, by decide⟩

/-- C3 (amended): with both inputs opened, the cross-check before any
cluster is processed succeeds exactly when the two headers agree on cluster
size, device size and cluster count (each modulo its stored width) and,
when the first image's extra-metadata length is nonzero, on the extra
metadata bytes; any other outcome is the fatal identical-headers error.
The in-use count is not compared. -/
theorem c3_header_check_fields (f1 : ImageFile) (m1 : List Nat) (f2 : ImageFile)
    (m2 m3 : List Nat) (i1 i2 : InputImage)
    (h1 : open_input_image f1 m1 = .ok i1)
    (h2 : open_input_image f2 m2 = .ok i2) :
    (prepare_image_files f1 m1 f2 m2 m3 = .ok (i1, i2, create_output_image m3 i2) ∨
     prepare_image_files f1 m1 f2 m2 m3 =
       .error "Input images do not have identical headers") ∧
    (prepare_image_files f1 m1 f2 m2 m3 = .ok (i1, i2, create_output_image m3 i2) ↔
      ((i1.hdr.cluster_size % 2 ^ 32 = i2.hdr.cluster_size % 2 ^ 32 ∧
        i1.hdr.device_size.emod (2 ^ 64) = i2.hdr.device_size.emod (2 ^ 64) ∧
        i1.hdr.nr_clusters.emod (2 ^ 64) = i2.hdr.nr_clusters.emod (2 ^ 64)) ∧
       (i1.hdr_extra_len = 0 ∨
        i1.hdr_extra.take i1.hdr_extra_len = i2.hdr_extra.take i1.hdr_extra_len))) := by
  obtain ⟨hd, hiff⟩ := prepare_hdr_check f1 m1 f2 m2 m3 i1 i2 h1 h2
  refine ⟨hd, ?_⟩
  rw [hiff, hdrCmpRegion_eq_iff]

/-- C3 witness: the amended check applied to cf3a and cf3b. -/
theorem c3_header_check_fields_witness :
    open_input_image cf3a IMAGE_MAGIC = .ok img3a ∧
    open_input_image cf3b IMAGE_MAGIC = .ok img3b ∧
    ((prepare_image_files cf3a IMAGE_MAGIC cf3b IMAGE_MAGIC DELTA_MAGIC =
        .ok (img3a, img3b, create_output_image DELTA_MAGIC img3b) ∨
      prepare_image_files cf3a IMAGE_MAGIC cf3b IMAGE_MAGIC DELTA_MAGIC =
        .error "Input images do not have identical headers") ∧
     (prepare_image_files cf3a IMAGE_MAGIC cf3b IMAGE_MAGIC DELTA_MAGIC =
        .ok (img3a, img3b, create_output_image DELTA_MAGIC img3b) ↔
       ((img3a.hdr.cluster_size % 2 ^ 32 = img3b.hdr.cluster_size % 2 ^ 32 ∧
         img3a.hdr.device_size.emod (2 ^ 64) = img3b.hdr.device_size.emod (2 ^ 64) ∧
         img3a.hdr.nr_clusters.emod (2 ^ 64) = img3b.hdr.nr_clusters.emod (2 ^ 64)) ∧
        (img3a.hdr_extra_len = 0 ∨
         img3a.hdr_extra.take img3a.hdr_extra_len =
           img3b.hdr_extra.take img3a.hdr_extra_len)))) :=
  ⟨rfl, rfl,
    c3_header_check_fields cf3a IMAGE_MAGIC cf3b IMAGE_MAGIC DELTA_MAGIC
      img3a img3b rfl rfl⟩

/-- C4 counterexample: in patch application the output header is copied from
the DELTA input, not from the OLD input: with OLD in the old format and
DELTA in the new format, the output's minor version equals DELTA's and
differs from OLD's. -/
theorem c4_apply_template_is_delta :
    cf4old.hdr.minor_ver = NTFSCLONE_IMG_VER_MINOR_OLD ∧
    cf4delta.hdr.minor_ver = NTFSCLONE_IMG_VER_MINOR_NEW ∧
    apply_patch cf4old cf4delta = .ok cf4out ∧
    cf4out.hdr.minor_ver ≠ cf4old.hdr.minor_ver ∧
    cf4out.hdr = { cf4delta.hdr with magic := IMAGE_MAGIC } := by
  refine ⟨rfl, rfl, by rfl, by decide, by decide⟩

/-- C4 (amended): the output header is never independently constructed: the
given magic is written and every other header field plus the extra block is
copied from the second input image, which is NEW when generating a delta
and DELTA when applying a patch. -/
theorem c4_output_header_template (f1 f2 out1 out2 : ImageFile) :
    (create_delta f1 f2 = .ok out1 →
      out1.hdr = { f2.hdr with magic := DELTA_MAGIC } ∧
      out1.extra = f2.extra.take
        ((f2.hdr.offset_to_image_data + 2 ^ 32 - image_hdr_size) % 2 ^ 32)) ∧
    (apply_patch f1 f2 = .ok out2 →
      out2.hdr = { f2.hdr with magic := IMAGE_MAGIC } ∧
      out2.extra = f2.extra.take
        ((f2.hdr.offset_to_image_data + 2 ^ 32 - image_hdr_size) % 2 ^ 32)) := by
  constructor
  · intro h
    unfold create_delta at h
    rcases hp : prepare_image_files f1 IMAGE_MAGIC f2 IMAGE_MAGIC DELTA_MAGIC
      with e | ⟨i1, i2, w0⟩
    · rw [hp] at h
      simp [Bind.bind, Except.bind] at h
    · rw [hp] at h
      simp only [Bind.bind, Except.bind] at h
      obtain ⟨hi1, hi2, hw0, _, _⟩ :=
        prepare_image_files_inv f1 IMAGE_MAGIC f2 IMAGE_MAGIC DELTA_MAGIC i1 i2 w0 hp
      obtain ⟨hh2, hx2, hlen2, _⟩ := open_input_image_inv f2 IMAGE_MAGIC i2 hi2
      rcases hl : delta_loop
          (if i1.bbs_present && i2.bbs_present then i1.ccount + 1 else i1.ccount).toNat
          i1 i2 w0 with e | ⟨o2, n2, w2⟩
      · rw [hl] at h
        simp at h
      · rw [hl] at h
        simp only [] at h
        rcases ht : delta_tail o2 n2 w2 with e | ⟨o3, n3, w3⟩
        · rw [ht] at h
          simp at h
        · rw [ht] at h
          simp only [] at h
          rcases hf : finish_image_files o3 n3 w3 with e | w4
          · rw [hf] at h
            simp at h
          · rw [hf] at h
            simp only [] at h
            rw [Except.ok.injEq] at h
            subst h
            obtain ⟨hph, hpx⟩ := delta_loop_hdr _ i1 i2 w0 o2 n2 w2 hl
            obtain ⟨hth, htx⟩ := delta_tail_hdr o2 n2 w2 o3 n3 w3 ht
            obtain ⟨hfh, hfx⟩ := finish_image_files_hdr o3 n3 w3 w4 hf
            have hwh : w4.hdr = w0.hdr := (hfh.trans hth).trans hph
            have hwx : w4.hdr_extra = w0.hdr_extra := (hfx.trans htx).trans hpx
            subst hw0
            constructor
            · show w4.hdr = _
              rw [hwh]
              show { i2.hdr with magic := DELTA_MAGIC } = _
              rw [hh2]
            · show w4.hdr_extra = _
              rw [hwx]
              show i2.hdr_extra.take i2.hdr_extra_len = _
              rw [hx2, hlen2]
  · intro h
    unfold apply_patch at h
    rcases hp : prepare_image_files f1 IMAGE_MAGIC f2 DELTA_MAGIC IMAGE_MAGIC
      with e | ⟨i1, i2, w0⟩
    · rw [hp] at h
      simp [Bind.bind, Except.bind] at h
    · rw [hp] at h
      simp only [Bind.bind, Except.bind] at h
      obtain ⟨hi1, hi2, hw0, _, _⟩ :=
        prepare_image_files_inv f1 IMAGE_MAGIC f2 DELTA_MAGIC IMAGE_MAGIC i1 i2 w0 hp
      obtain ⟨hh2, hx2, hlen2, _⟩ := open_input_image_inv f2 DELTA_MAGIC i2 hi2
      rcases hl : apply_loop i1.ccount.toNat i1 i2 w0 with e | ⟨o2, n2, w2⟩
      · rw [hl] at h
        simp at h
      · rw [hl] at h
        simp only [] at h
        rcases ht : apply_tail o2 n2 w2 with e | ⟨o3, n3, w3⟩
        · rw [ht] at h
          simp at h
        · rw [ht] at h
          simp only [] at h
          rcases hf : finish_image_files o3 n3 w3 with e | w4
          · rw [hf] at h
            simp at h
          · rw [hf] at h
            simp only [] at h
            rw [Except.ok.injEq] at h
            subst h
            obtain ⟨hph, hpx⟩ := apply_loop_hdr _ i1 i2 w0 o2 n2 w2 hl
            obtain ⟨hth, htx⟩ := apply_tail_hdr o2 n2 w2 o3 n3 w3 ht
            obtain ⟨hfh, hfx⟩ := finish_image_files_hdr o3 n3 w3 w4 hf
            have hwh : w4.hdr = w0.hdr := (hfh.trans hth).trans hph
            have hwx : w4.hdr_extra = w0.hdr_extra := (hfx.trans htx).trans hpx
            subst hw0
            constructor
            · show w4.hdr = _
              rw [hwh]
              show { i2.hdr with magic := IMAGE_MAGIC } = _
              rw [hh2]
            · show w4.hdr_extra = _
              rw [hwx]
              show i2.hdr_extra.take i2.hdr_extra_len = _
              rw [hx2, hlen2]

/-- C4 witness: the amended template rule evaluated on cf4old and cf4delta. -/
theorem c4_output_header_template_witness :
    apply_patch cf4old cf4delta = .ok cf4out ∧
    cf4out.hdr = { cf4delta.hdr with magic := IMAGE_MAGIC } ∧
    cf4out.extra = cf4delta.extra.take
      ((cf4delta.hdr.offset_to_image_data + 2 ^ 32 - image_hdr_size) % 2 ^ 32) :=
  ⟨by rfl,
    (c4_output_header_template cf4old cf4delta cf4out cf4out).2 (by rfl)⟩

/-- C7: over any k positions, the delta-generation loop reads one event
from OLD and one from NEW per position and emits exactly the diff policy of
the pair: skip when both are skip or both are data with identical payloads,
drop when only NEW is skip, and a data event carrying NEW's payload
otherwise (deltaPolicy spells out these three rules). -/
theorem c7_delta_policy (old new : InputImage) (w : OutputImage) (k : Nat)
    (h1 : readerInv false old = true) (h2 : readerInv false new = true)
    (h3 : writerInv w = true) (hcs : new.csize = old.csize)
    (hk1 : k ≤ (pendingEvents old).length) (hk2 : k ≤ (pendingEvents new).length) :
    ∃ old2 new2 w2,
      delta_loop k old new w = .ok (old2, new2, w2) ∧
      outEvents w2 = outEvents w ++
        List.zipWith deltaPolicy ((pendingEvents old).take k)
          ((pendingEvents new).take k) := by
  obtain ⟨o2, n2, w2, ha, hb, _⟩ := delta_loop_spec k old new w h1 h2 h3 hcs hk1 hk2
  exact ⟨o2, n2, w2, ha, hb⟩

/-- C7 witness: a changed data cluster and an unchanged skip cluster. -/
theorem c7_delta_policy_witness :
    readerInv false r7old = true ∧ readerInv false r7new = true ∧
    writerInv freshWriter = true ∧ r7new.csize = r7old.csize ∧
    2 ≤ (pendingEvents r7old).length ∧ 2 ≤ (pendingEvents r7new).length ∧
    (∃ old2 new2 w2,
      delta_loop 2 r7old r7new freshWriter = .ok (old2, new2, w2) ∧
      outEvents w2 = outEvents freshWriter ++
        List.zipWith deltaPolicy ((pendingEvents r7old).take 2)
          ((pendingEvents r7new).take 2)) :=
  ⟨by decide, by decide, by decide, rfl, by decide, by decide,
    c7_delta_policy r7old r7new freshWriter 2 (by decide) (by decide) (by decide)
      rfl (by decide) (by decide)⟩

/-- C8: over any k positions, the patch-application loop reads one event
from OLD and one from DELTA per position and emits exactly the merge
policy of the pair: skip when DELTA is drop or both are skip, a data event
with OLD's payload when DELTA is skip (skip in a delta always means copy
from OLD, never leave unallocated), and a data event with DELTA's payload
otherwise (applyPolicy spells out these rules). -/
theorem c8_apply_policy (old delta : InputImage) (w : OutputImage) (k : Nat)
    (h1 : readerInv false old = true) (h2 : readerInv true delta = true)
    (h3 : writerInv w = true)
    (hk1 : k ≤ (pendingEvents old).length) (hk2 : k ≤ (pendingEvents delta).length) :
    ∃ old2 delta2 w2,
      apply_loop k old delta w = .ok (old2, delta2, w2) ∧
      outEvents w2 = outEvents w ++
        List.zipWith applyPolicy ((pendingEvents old).take k)
          ((pendingEvents delta).take k) := by
  obtain ⟨o2, d2, w2, ha, hb, _⟩ := apply_loop_spec k old delta w h1 h2 h3 hk1 hk2
  exact ⟨o2, d2, w2, ha, hb⟩

/-- C8 witness: one dropped cluster and one cluster copied from OLD. -/
theorem c8_apply_policy_witness :
    readerInv false r8old = true ∧ readerInv true r8delta = true ∧
    writerInv freshWriter = true ∧
    2 ≤ (pendingEvents r8old).length ∧ 2 ≤ (pendingEvents r8delta).length ∧
    (∃ old2 delta2 w2,
      apply_loop 2 r8old r8delta freshWriter = .ok (old2, delta2, w2) ∧
      outEvents w2 = outEvents freshWriter ++
        List.zipWith applyPolicy ((pendingEvents r8old).take 2)
          ((pendingEvents r8delta).take 2)) :=
  ⟨by decide, by decide, by decide, by decide, by decide,
    c8_apply_policy r8old r8delta freshWriter 2 (by decide) (by decide) (by decide)
      (by decide) (by decide)⟩

/-- C1: evaluation at a failing input for the round-trip.  With OLD and NEW
both carrying the trailing-sector flag, generation succeeds and produces a
delta whose header carries the flag, but applying that delta to OLD fails
with a fatal error instead of reconstructing NEW: the application loop runs
only old.ccount iterations (line 364 uses old.ccount, not the bumped
ccount), so the trailing cluster is never consumed. -/
theorem c1_roundtrip_both_flags_fails :
    create_delta cf1img cf1img = .ok cf1delta ∧
    apply_patch cf1img cf1delta =
      .error "First input image has remaining unused clusters at the end" := by
  constructor <;> rfl

/-- C2: evaluation at a failing input for the loop count.  Both inputs have
the trailing-sector flag and well-formed streams of nr_clusters + 1 events,
yet apply_patch fails: its main loop runs only old.ccount = 2 iterations
rather than the claimed 3, leaving the trailing cluster of each input
unconsumed, and finalization aborts. -/
theorem c2_apply_loop_count_bug :
    cf2old.hdr.minor_ver = NTFSCLONE_IMG_VER_MINOR_NEW ∧
    cf2delta.hdr.minor_ver = NTFSCLONE_IMG_VER_MINOR_NEW ∧
    (streamEvents cf2old.recs).length = cf2old.hdr.nr_clusters.toNat + 1 ∧
    (streamEvents cf2delta.recs).length = cf2old.hdr.nr_clusters.toNat + 1 ∧
    apply_patch cf2old cf2delta =
      .error "First input image has remaining unused clusters at the end" := by
  refine ⟨rfl, rfl, by decide, by decide, by rfl⟩

/-
  Round-trip development: with neither input carrying the trailing sector,
  applying the generated delta reconstructs NEW's header and cluster events.
-/

theorem streamEvents_no_drop (cs : Nat) (rs : List Record)
    (hwf : wfStream false cs rs = true) :
    ∀ e ∈ streamEvents rs, e ≠ Event.drop := by
  intro e he
  rw [streamEvents, List.mem_flatten] at he
  obtain ⟨l, hl, hel⟩ := he
  rw [List.mem_map] at hl
  obtain ⟨r, hr, hrl⟩ := hl
  have hwr := List.all_eq_true.mp hwf r hr
  subst hrl
  rcases r with rep | p | rep
  · rw [recEvents] at hel
    have := List.eq_of_mem_replicate hel
    rw [this]
    simp
  · rw [recEvents, List.mem_singleton] at hel
    rw [hel]
    simp
  · rw [wfRec] at hwr
    simp at hwr

theorem zip_roundtrip (os : List Event) :
    ∀ ns : List Event, os.length = ns.length →
    (∀ e ∈ os, e ≠ Event.drop) → (∀ e ∈ ns, e ≠ Event.drop) →
    List.zipWith applyPolicy os (List.zipWith deltaPolicy os ns) = ns := by
  induction os with
  | nil =>
      intro ns hlen _ _
      rw [List.length_nil] at hlen
      rw [(List.length_eq_zero.mp hlen.symm)]
      rfl
  | cons e os ih =>
      intro ns hlen hos hns
      rcases ns with _ | ⟨f, ns⟩
      · simp at hlen
      simp only [List.zipWith_cons_cons, List.cons.injEq]
      have hrest := ih ns (by simpa using hlen)
        (fun x hx => hos x (List.mem_cons_of_mem e hx))
        (fun x hx => hns x (List.mem_cons_of_mem f hx))
      refine ⟨?_, hrest⟩
      have hed : e ≠ Event.drop := hos e (List.mem_cons_self e os)
      have hfd : f ≠ Event.drop := hns f (List.mem_cons_self f ns)
      rcases e with _ | _ | p
      · rcases f with _ | _ | q
        · rfl
        · exact absurd rfl hfd
        · rfl
      · exact absurd rfl hed
      · rcases f with _ | _ | q
        · rfl
        · exact absurd rfl hfd
        · by_cases hpq : p = q
          · simp [deltaPolicy, applyPolicy, hpq]
          · simp [deltaPolicy, applyPolicy, hpq]

theorem hdr_set_magic_self (h : ImageHdr) (m : List Nat) (hm : h.magic = m) :
    { h with magic := m } = h := by
  subst hm
  rfl

theorem readerInv_open (allow : Bool) (f : ImageFile) (magic : List Nat)
    (img : InputImage) (h : open_input_image f magic = .ok img)
    (hwf : wfStream allow f.hdr.cluster_size f.recs = true) :
    readerInv allow img = true ∧ pendingEvents img = streamEvents f.recs := by
  obtain ⟨hh, hx, hxl, hcs, hcc, hbbs, hrep, hstream, hmag⟩ :=
    open_input_image_inv f magic img h
  constructor
  · rw [readerInv, hrep, hcs, hstream]
    simp [hwf]
  · rw [pendingEvents, hrep, hstream]
    simp

theorem writerInv_create_output (cs : Nat) (m : List Nat) (img : InputImage) :
    writerInv (create_output_image m img) = true ∧
    outEvents (create_output_image m img) = [] ∧
    wfStream true cs (create_output_image m img).out = true := by
  refine ⟨by rfl, ?_, rfl⟩
  rw [outEvents, create_output_image]
  simp [outPending, streamEvents, CMD_DATA, CMD_SKIP, CMD_DROP]

theorem create_delta_run (f1 f2 : ImageFile) (i1 i2 : InputImage) (w0 : OutputImage)
    (o2 n2 : InputImage) (w2 : OutputImage)
    (hprep : prepare_image_files f1 IMAGE_MAGIC f2 IMAGE_MAGIC DELTA_MAGIC =
      .ok (i1, i2, w0))
    (hb1 : i1.bbs_present = false) (hb2 : i2.bbs_present = false)
    (hloop : delta_loop i1.ccount.toNat i1 i2 w0 = .ok (o2, n2, w2))
    (hbo : o2.bbs_present = false) (hbn : n2.bbs_present = false)
    (hro : ¬ 0 < o2.cmd_repeat) (hrn : ¬ 0 < n2.cmd_repeat) :
    create_delta f1 f2 =
      .ok { hdr := (write_pending_cmd w2).hdr
            extra := (write_pending_cmd w2).hdr_extra
            recs := (write_pending_cmd w2).out } := by
  have hcc : (if i1.bbs_present && i2.bbs_present then i1.ccount + 1
      else i1.ccount) = i1.ccount := by
    rw [hb1]
    simp
  have htail : delta_tail o2 n2 w2 = .ok (o2, n2, w2) := by
    unfold delta_tail
    rw [hbo, hbn]
    simp
  have hfin : finish_image_files o2 n2 w2 = .ok (write_pending_cmd w2) := by
    unfold finish_image_files
    rw [if_neg hro, if_neg hrn]
  unfold create_delta
  rw [hprep]
  simp only [Bind.bind, Except.bind]
  rw [hcc, hloop]
  simp only []
  rw [htail]
  simp only []
  rw [hfin]

theorem apply_patch_run (f1 f2 : ImageFile) (i1 i2 : InputImage) (w0 : OutputImage)
    (o2 d2 : InputImage) (w2 : OutputImage)
    (hprep : prepare_image_files f1 IMAGE_MAGIC f2 DELTA_MAGIC IMAGE_MAGIC =
      .ok (i1, i2, w0))
    (hloop : apply_loop i1.ccount.toNat i1 i2 w0 = .ok (o2, d2, w2))
    (hbo : o2.bbs_present = false) (hbd : d2.bbs_present = false)
    (hro : ¬ 0 < o2.cmd_repeat) (hrd : ¬ 0 < d2.cmd_repeat) :
    apply_patch f1 f2 =
      .ok { hdr := (write_pending_cmd w2).hdr
            extra := (write_pending_cmd w2).hdr_extra
            recs := (write_pending_cmd w2).out } := by
  have htail : apply_tail o2 d2 w2 = .ok (o2, d2, w2) := by
    unfold apply_tail
    rw [hbo, hbd]
    simp
  have hfin : finish_image_files o2 d2 w2 = .ok (write_pending_cmd w2) := by
    unfold finish_image_files
    rw [if_neg hro, if_neg hrd]
  unfold apply_patch
  rw [hprep]
  simp only [Bind.bind, Except.bind]
  rw [hloop]
  simp only []
  rw [htail]
  simp only []
  rw [hfin]

/-- Delta generation in the old format: the produced file carries NEW's
header retagged with the delta magic, no extra block, and its command
stream decodes exactly to the pointwise diff policy of the two inputs. -/
theorem generate_phase (f1 f2 : ImageFile)
    (hm1 : f1.hdr.magic = IMAGE_MAGIC) (hm2 : f2.hdr.magic = IMAGE_MAGIC)
    (hmaj1 : f1.hdr.major_ver = NTFSCLONE_IMG_VER_MAJOR)
    (hmaj2 : f2.hdr.major_ver = NTFSCLONE_IMG_VER_MAJOR)
    (hmin1 : f1.hdr.minor_ver = NTFSCLONE_IMG_VER_MINOR_OLD)
    (hmin2 : f2.hdr.minor_ver = NTFSCLONE_IMG_VER_MINOR_OLD)
    (hoff1 : f1.hdr.offset_to_image_data = image_hdr_size)
    (hoff2 : f2.hdr.offset_to_image_data = image_hdr_size)
    (hx1 : f1.extra = []) (hx2 : f2.extra = [])
    (hcsz : f2.hdr.cluster_size = f1.hdr.cluster_size)
    (hdev : f2.hdr.device_size = f1.hdr.device_size)
    (hnrc : f2.hdr.nr_clusters = f1.hdr.nr_clusters)
    (hwf1 : wfStream false f1.hdr.cluster_size f1.recs = true)
    (hwf2 : wfStream false f1.hdr.cluster_size f2.recs = true)
    (hlen1 : (streamEvents f1.recs).length = f1.hdr.nr_clusters.toNat)
    (hlen2 : (streamEvents f2.recs).length = f1.hdr.nr_clusters.toNat) :
    ∃ d : ImageFile, create_delta f1 f2 = .ok d ∧
      d.hdr = { f2.hdr with magic := DELTA_MAGIC } ∧ d.extra = [] ∧
      streamEvents d.recs =
        List.zipWith deltaPolicy (streamEvents f1.recs) (streamEvents f2.recs) ∧
      wfStream true f1.hdr.cluster_size d.recs = true ∧
      (streamEvents d.recs).length = f1.hdr.nr_clusters.toNat := by
  obtain ⟨i1, ho1⟩ : ∃ i1, open_input_image f1 IMAGE_MAGIC = .ok i1 :=
    ⟨_, open_input_image_ok f1 IMAGE_MAGIC hm1 hmaj1 (Or.inl hmin1)⟩
  obtain ⟨i2, ho2⟩ : ∃ i2, open_input_image f2 IMAGE_MAGIC = .ok i2 :=
    ⟨_, open_input_image_ok f2 IMAGE_MAGIC hm2 hmaj2 (Or.inl hmin2)⟩
  obtain ⟨hh1, hhx1, hhl1, hcs1, hcc1, hbb1, hrp1, hst1, _⟩ :=
    open_input_image_inv f1 IMAGE_MAGIC i1 ho1
  obtain ⟨hh2, hhx2, hhl2, hcs2, hcc2, hbb2, hrp2, hst2, _⟩ :=
    open_input_image_inv f2 IMAGE_MAGIC i2 ho2
  have hzero : (image_hdr_size + 2 ^ 32 - image_hdr_size) % 2 ^ 32 = 0 := by
    norm_num [image_hdr_size]
  have hlen1z : i1.hdr_extra_len = 0 := by
    rw [hhl1, hoff1, hzero]
  have hbb1f : i1.bbs_present = false := by
    rw [hbb1, hmin1]
    rfl
  have hbb2f : i2.bbs_present = false := by
    rw [hbb2, hmin2]
    rfl
  -- header cross-check passes
  have hregion : hdrCmpRegion i1.hdr = hdrCmpRegion i2.hdr := by
    rw [hh1, hh2]
    apply (hdrCmpRegion_eq_iff f1.hdr f2.hdr).mpr
    rw [hcsz, hdev, hnrc]
    exact ⟨rfl, rfl, rfl⟩
  have hprep := ((prepare_hdr_check f1 IMAGE_MAGIC f2 IMAGE_MAGIC DELTA_MAGIC
    i1 i2 ho1 ho2).2).mpr ⟨hregion, Or.inl hlen1z⟩
  -- reader and writer invariants
  obtain ⟨hri1, hpe1⟩ := readerInv_open false f1 IMAGE_MAGIC i1 ho1 hwf1
  have hwf2c : wfStream false f2.hdr.cluster_size f2.recs = true := by
    rw [hcsz]
    exact hwf2
  obtain ⟨hri2, hpe2⟩ := readerInv_open false f2 IMAGE_MAGIC i2 ho2 hwf2c
  obtain ⟨hwi, houtw0, hwfw0⟩ :=
    writerInv_create_output i1.csize DELTA_MAGIC i2
  have hcsi : i2.csize = i1.csize := by
    rw [hcs1, hcs2, hcsz]
  -- run the loop over the full declared count
  have hk1 : i1.ccount.toNat ≤ (pendingEvents i1).length := by
    rw [hpe1, hlen1, hcc1]
  have hk2 : i1.ccount.toNat ≤ (pendingEvents i2).length := by
    rw [hpe2, hlen2, hcc1]
  obtain ⟨o2, n2, w2, hl1, hl2, hl3, hl4, hl5, hl6, hl7, hl8, hl9, hl10,
    hl11, hl12, hl13, hl14, hl15⟩ :=
    delta_loop_spec i1.ccount.toNat i1 i2 (create_output_image DELTA_MAGIC i2)
      hri1 hri2 hwi hcsi hk1 hk2
  have hos : (pendingEvents i1).take i1.ccount.toNat = streamEvents f1.recs := by
    rw [hpe1]
    have : i1.ccount.toNat = (streamEvents f1.recs).length := by
      rw [hlen1, hcc1]
    rw [this, List.take_length]
  have hns : (pendingEvents i2).take i1.ccount.toNat = streamEvents f2.recs := by
    rw [hpe2]
    have : i1.ccount.toNat = (streamEvents f2.recs).length := by
      rw [hlen2, hcc1]
    rw [this, List.take_length]
  have hdone1 : pendingEvents o2 = [] := by
    rw [hl3, hpe1]
    apply List.drop_eq_nil_of_le
    rw [hlen1, hcc1]
  have hdone2 : pendingEvents n2 = [] := by
    rw [hl4, hpe2]
    apply List.drop_eq_nil_of_le
    rw [hlen2, hcc1]
  have hro : ¬ 0 < o2.cmd_repeat := by
    rw [pendingEvents_nil_repeat false o2 hl5 hdone1]
    omega
  have hrn : ¬ 0 < n2.cmd_repeat := by
    rw [pendingEvents_nil_repeat false n2 hl6 hdone2]
    omega
  have hbo : o2.bbs_present = false := by rw [hl11, hbb1f]
  have hbn : n2.bbs_present = false := by rw [hl12, hbb2f]
  have hcd := create_delta_run f1 f2 i1 i2 (create_output_image DELTA_MAGIC i2)
    o2 n2 w2 hprep hbb1f hbb2f hl1 hbo hbn hro hrn
  refine ⟨_, hcd, ?_, ?_, ?_, ?_, ?_⟩
  · -- header: NEW's header retagged
    obtain ⟨_, _, _, _, hph, _⟩ := write_pending_spec w2 hl7
    show (write_pending_cmd w2).hdr = _
    rw [hph, hl13]
    show { i2.hdr with magic := DELTA_MAGIC } = _
    rw [hh2]
  · -- extra block: empty
    obtain ⟨_, _, _, _, _, hpx⟩ := write_pending_spec w2 hl7
    show (write_pending_cmd w2).hdr_extra = _
    rw [hpx, hl14]
    show i2.hdr_extra.take i2.hdr_extra_len = _
    rw [hhx2, hx2]
    simp
  · -- events
    obtain ⟨hpe, hpcmd, _, _, _, _⟩ := write_pending_spec w2 hl7
    have hop : outPending (write_pending_cmd w2) = [] := by
      rw [outPending, hpcmd]
      simp [CMD_DATA, CMD_SKIP, CMD_DROP]
    have hse : streamEvents (write_pending_cmd w2).out = outEvents w2 := by
      rw [← hpe, outEvents, hop, List.append_nil]
    show streamEvents (write_pending_cmd w2).out = _
    rw [hse, hl2, houtw0, hos, hns]
    simp
  · -- well-formedness of the delta stream
    have hw2wf : wfStream true i1.csize w2.out = true := hl15 hwfw0
    have hfin : wfStream true i1.csize (write_pending_cmd w2).out = true :=
      wfOut_write_pending i1.csize w2 hl7 hw2wf
    show wfStream true f1.hdr.cluster_size (write_pending_cmd w2).out = true
    rw [← hcs1]
    exact hfin
  · -- declared count
    obtain ⟨hpe, hpcmd, _, _, _, _⟩ := write_pending_spec w2 hl7
    have hop : outPending (write_pending_cmd w2) = [] := by
      rw [outPending, hpcmd]
      simp [CMD_DATA, CMD_SKIP, CMD_DROP]
    have hse : streamEvents (write_pending_cmd w2).out = outEvents w2 := by
      rw [← hpe, outEvents, hop, List.append_nil]
    show (streamEvents (write_pending_cmd w2).out).length = _
    rw [hse, hl2, houtw0, hos, hns]
    simp only [List.nil_append, List.length_zipWith]
    rw [hlen1, hlen2]
    simp

/-- Round-trip for the old format (neither input carries the trailing
reserved sector): applying the generated delta to OLD succeeds and
reconstructs NEW's header, extra metadata and exact cluster-event sequence.
Byte-for-byte stream equality additionally requires NEW's stream to be
canonically run-length encoded, since the writer re-merges adjacent runs;
at the decoded-event level the reconstruction is exact.  In the both-flags
case this round-trip fails (see the C1 and C2 theorems). -/
theorem delta_patch_roundtrip (f1 f2 : ImageFile)
    (hm1 : f1.hdr.magic = IMAGE_MAGIC) (hm2 : f2.hdr.magic = IMAGE_MAGIC)
    (hmaj1 : f1.hdr.major_ver = NTFSCLONE_IMG_VER_MAJOR)
    (hmaj2 : f2.hdr.major_ver = NTFSCLONE_IMG_VER_MAJOR)
    (hmin1 : f1.hdr.minor_ver = NTFSCLONE_IMG_VER_MINOR_OLD)
    (hmin2 : f2.hdr.minor_ver = NTFSCLONE_IMG_VER_MINOR_OLD)
    (hoff1 : f1.hdr.offset_to_image_data = image_hdr_size)
    (hoff2 : f2.hdr.offset_to_image_data = image_hdr_size)
    (hx1 : f1.extra = []) (hx2 : f2.extra = [])
    (hcsz : f2.hdr.cluster_size = f1.hdr.cluster_size)
    (hdev : f2.hdr.device_size = f1.hdr.device_size)
    (hnrc : f2.hdr.nr_clusters = f1.hdr.nr_clusters)
    (hwf1 : wfStream false f1.hdr.cluster_size f1.recs = true)
    (hwf2 : wfStream false f1.hdr.cluster_size f2.recs = true)
    (hlen1 : (streamEvents f1.recs).length = f1.hdr.nr_clusters.toNat)
    (hlen2 : (streamEvents f2.recs).length = f1.hdr.nr_clusters.toNat) :
    ∃ d out : ImageFile,
      create_delta f1 f2 = .ok d ∧
      apply_patch f1 d = .ok out ∧
      out.hdr = f2.hdr ∧ out.extra = f2.extra ∧
      streamEvents out.recs = streamEvents f2.recs := by
  obtain ⟨d, hcd, hdh, hdx, hde, hdwf, hdlen⟩ :=
    generate_phase f1 f2 hm1 hm2 hmaj1 hmaj2 hmin1 hmin2 hoff1 hoff2 hx1 hx2
      hcsz hdev hnrc hwf1 hwf2 hlen1 hlen2
  -- projections of the delta file's header
  have hdm : d.hdr.magic = DELTA_MAGIC := by rw [hdh]
  have hdmaj : d.hdr.major_ver = NTFSCLONE_IMG_VER_MAJOR := by rw [hdh]; exact hmaj2
  have hdmin : d.hdr.minor_ver = NTFSCLONE_IMG_VER_MINOR_OLD := by rw [hdh]; exact hmin2
  have hdoff : d.hdr.offset_to_image_data = image_hdr_size := by rw [hdh]; exact hoff2
  have hdcsz : d.hdr.cluster_size = f1.hdr.cluster_size := by rw [hdh]; exact hcsz
  have hddev : d.hdr.device_size = f1.hdr.device_size := by rw [hdh]; exact hdev
  have hdnrc : d.hdr.nr_clusters = f1.hdr.nr_clusters := by rw [hdh]; exact hnrc
  -- open both apply-side inputs
  obtain ⟨i1, ho1⟩ : ∃ i1, open_input_image f1 IMAGE_MAGIC = .ok i1 :=
    ⟨_, open_input_image_ok f1 IMAGE_MAGIC hm1 hmaj1 (Or.inl hmin1)⟩
  obtain ⟨iD, hoD⟩ : ∃ iD, open_input_image d DELTA_MAGIC = .ok iD :=
    ⟨_, open_input_image_ok d DELTA_MAGIC hdm hdmaj (Or.inl hdmin)⟩
  obtain ⟨hh1, hhx1, hhl1, hcs1, hcc1, hbb1, hrp1, hst1, _⟩ :=
    open_input_image_inv f1 IMAGE_MAGIC i1 ho1
  obtain ⟨hhD, hhxD, hhlD, hcsD, hccD, hbbD, hrpD, hstD, _⟩ :=
    open_input_image_inv d DELTA_MAGIC iD hoD
  have hzero : (image_hdr_size + 2 ^ 32 - image_hdr_size) % 2 ^ 32 = 0 := by
    norm_num [image_hdr_size]
  have hlen1z : i1.hdr_extra_len = 0 := by
    rw [hhl1, hoff1, hzero]
  have hlenDz : iD.hdr_extra_len = 0 := by
    rw [hhlD, hdoff, hzero]
  have hbb1f : i1.bbs_present = false := by
    rw [hbb1, hmin1]
    rfl
  have hbbDf : iD.bbs_present = false := by
    rw [hbbD, hdmin]
    rfl
  -- header cross-check passes
  have hregion : hdrCmpRegion i1.hdr = hdrCmpRegion iD.hdr := by
    rw [hh1, hhD]
    apply (hdrCmpRegion_eq_iff f1.hdr d.hdr).mpr
    rw [hdcsz, hddev, hdnrc]
    exact ⟨rfl, rfl, rfl⟩
  have hprep := ((prepare_hdr_check f1 IMAGE_MAGIC d DELTA_MAGIC IMAGE_MAGIC
    i1 iD ho1 hoD).2).mpr ⟨hregion, Or.inl hlen1z⟩
  -- reader and writer invariants
  obtain ⟨hri1, hpe1⟩ := readerInv_open false f1 IMAGE_MAGIC i1 ho1 hwf1
  have hdwfc : wfStream true d.hdr.cluster_size d.recs = true := by
    rw [hdcsz]
    exact hdwf
  obtain ⟨hriD, hpeD⟩ := readerInv_open true d DELTA_MAGIC iD hoD hdwfc
  obtain ⟨hwi, houtv0, _⟩ := writerInv_create_output i1.csize IMAGE_MAGIC iD
  -- run the apply loop over the full declared count
  have hk1 : i1.ccount.toNat ≤ (pendingEvents i1).length := by
    rw [hpe1, hlen1, hcc1]
  have hk2 : i1.ccount.toNat ≤ (pendingEvents iD).length := by
    rw [hpeD, hdlen, hcc1]
  obtain ⟨o2, d2, w2, hl1, hl2, hl3, hl4, hl5, hl6, hl7, hl8, hl9, hl10,
    hl11, hl12, hl13, hl14⟩ :=
    apply_loop_spec i1.ccount.toNat i1 iD (create_output_image IMAGE_MAGIC iD)
      hri1 hriD hwi hk1 hk2
  have hos : (pendingEvents i1).take i1.ccount.toNat = streamEvents f1.recs := by
    rw [hpe1]
    have : i1.ccount.toNat = (streamEvents f1.recs).length := by
      rw [hlen1, hcc1]
    rw [this, List.take_length]
  have hds : (pendingEvents iD).take i1.ccount.toNat = streamEvents d.recs := by
    rw [hpeD]
    have : i1.ccount.toNat = (streamEvents d.recs).length := by
      rw [hdlen, hcc1]
    rw [this, List.take_length]
  have hdone1 : pendingEvents o2 = [] := by
    rw [hl3, hpe1]
    apply List.drop_eq_nil_of_le
    rw [hlen1, hcc1]
  have hdone2 : pendingEvents d2 = [] := by
    rw [hl4, hpeD]
    apply List.drop_eq_nil_of_le
    rw [hdlen, hcc1]
  have hro : ¬ 0 < o2.cmd_repeat := by
    rw [pendingEvents_nil_repeat false o2 hl5 hdone1]
    omega
  have hrd : ¬ 0 < d2.cmd_repeat := by
    rw [pendingEvents_nil_repeat true d2 hl6 hdone2]
    omega
  have hbo : o2.bbs_present = false := by rw [hl11, hbb1f]
  have hbd : d2.bbs_present = false := by rw [hl12, hbbDf]
  have hap := apply_patch_run f1 d i1 iD (create_output_image IMAGE_MAGIC iD)
    o2 d2 w2 hprep hl1 hbo hbd hro hrd
  refine ⟨d, _, hcd, hap, ?_, ?_, ?_⟩
  · -- header: OLD magic over the delta header gives back NEW's header
    obtain ⟨_, _, _, _, hph, _⟩ := write_pending_spec w2 hl7
    show (write_pending_cmd w2).hdr = _
    rw [hph, hl13]
    show { iD.hdr with magic := IMAGE_MAGIC } = _
    rw [hhD, hdh]
    show { f2.hdr with magic := IMAGE_MAGIC } = _
    exact hdr_set_magic_self f2.hdr IMAGE_MAGIC hm2
  · -- extra block
    obtain ⟨_, _, _, _, _, hpx⟩ := write_pending_spec w2 hl7
    show (write_pending_cmd w2).hdr_extra = _
    rw [hpx, hl14]
    show iD.hdr_extra.take iD.hdr_extra_len = _
    rw [hhxD, hdx, hx2]
    simp
  · -- events: apply of the diff policy gives back NEW's events
    obtain ⟨hpe, hpcmd, _, _, _, _⟩ := write_pending_spec w2 hl7
    have hop : outPending (write_pending_cmd w2) = [] := by
      rw [outPending, hpcmd]
      simp [CMD_DATA, CMD_SKIP, CMD_DROP]
    have hse : streamEvents (write_pending_cmd w2).out = outEvents w2 := by
      rw [← hpe, outEvents, hop, List.append_nil]
    show streamEvents (write_pending_cmd w2).out = _
    rw [hse, hl2, houtv0, hos, hds, List.nil_append, hde]
    apply zip_roundtrip
    · rw [hlen1, hlen2]
    · exact streamEvents_no_drop f1.hdr.cluster_size f1.recs hwf1
    · exact streamEvents_no_drop f1.hdr.cluster_size f2.recs hwf2

/-- The round-trip theorem applied at a concrete old-format input pair. -/
theorem delta_patch_roundtrip_example :
    ∃ d out : ImageFile,
      create_delta cf3b cf9new = .ok d ∧
      apply_patch cf3b d = .ok out ∧
      out.hdr = cf9new.hdr ∧ out.extra = cf9new.extra ∧
      streamEvents out.recs = streamEvents cf9new.recs :=
  delta_patch_roundtrip cf3b cf9new rfl rfl rfl rfl rfl rfl rfl rfl rfl rfl
    rfl rfl rfl (by decide) (by decide) (by decide) (by decide)

end NtfsCloneImgDelta
